import Mathlib

/-!
# Verification of the Local-video-server discovery engine

Shallow embedding, in Lean 4, of the discovery and protocol-classification
core of the Local-video-server repository, together with proofs settling the
frozen specification claims.

Conventions of the embedding:
* Go strings are modelled as Lean `String` (for the SDP parser, as `List Char`,
  byte-per-char for the ASCII data handled there).
* `time.Time` values are modelled as natural numbers (`Nat`); the current
  instant `time.Now()` becomes an explicit `now : Nat` parameter.
* Network I/O is modelled by explicit environment records: a function saying
  whether a TCP connect succeeds, what the first response line is, and so on.
* Go `panic` (out-of-range slice or index) is modelled by `Option`: a slice
  operation returns `none` exactly when the Go original would panic.
* A Go loop whose termination is not structural is given explicit fuel; the
  fuel-independent behaviour is then proved separately.
-/

set_option maxRecDepth 10000

namespace LVS

/-! ## String helpers mirroring the Go standard library -/

/-- `listStartsWith pat s` : does `s` start with `pat`? (char-list form of
`strings.HasPrefix`). -/
def listStartsWith : List Char → List Char → Bool
  | [], _ => true
  | _ :: _, [] => false
  | p :: ps, c :: cs => p == c && listStartsWith ps cs

/-- char-list form of `strings.Contains`: does `s` contain `pat` as a
contiguous substring? -/
def listContainsSub (pat : List Char) : List Char → Bool
  | [] => listStartsWith pat []
  | c :: cs => listStartsWith pat (c :: cs) || listContainsSub pat cs

/-- `strings.Contains s pat`. -/
def strContains (s pat : String) : Bool :=
  listContainsSub pat.toList s.toList

/-- Go `unicode.IsSpace` restricted to the ASCII range (all characters that
occur in the data handled here). -/
def isSpaceChar (c : Char) : Bool :=
  c == ' ' || c == '\t' || c == '\n' || c == '\r' || c == '\x0b' || c == '\x0c'

/-- char-list form of `strings.TrimSpace`. -/
def listTrimSpace (l : List Char) : List Char :=
  ((l.dropWhile isSpaceChar).reverse.dropWhile isSpaceChar).reverse

/-- Split a char list at the first occurrence of `sep`, if any. -/
def splitFirst (sep : Char) : List Char → Option (List Char × List Char)
  | [] => none
  | c :: cs =>
    if c == sep then some ([], cs)
    else match splitFirst sep cs with
      | none => none
      | some (a, b) => some (c :: a, b)

/-- `strings.SplitN s (String.singleton sep) n` for `n ≥ 1`: at most `n`
parts, the last part keeps the remaining separators. -/
def splitNChar (sep : Char) : Nat → List Char → List (List Char)
  | 0, _ => []
  | 1, s => [s]
  | n + 2, s =>
    match splitFirst sep s with
    | none => [s]
    | some (a, b) => a :: splitNChar sep (n + 1) b

/-- `strconv.Atoi` on a char list: optional sign, one or more digits, nothing
else (integer overflow is not modelled; all values in the claims are small). -/
def atoiChars (s : List Char) : Option Int :=
  let core : List Char → Option Nat := fun digits =>
    if digits.isEmpty then none
    else if digits.all (fun c => c.isDigit) then
      some (digits.foldl (fun acc c => acc * 10 + (c.toNat - 48)) 0)
    else none
  match s with
  | '-' :: rest => (core rest).map (fun n => -(n : Int))
  | '+' :: rest => (core rest).map (fun n => (n : Int))
  | _ => (core s).map (fun n => (n : Int))

/-! ## Data model (`internal/models/device.go`) -/

/-- `models.Protocol`. The Go field `Type` is rendered `ptype` (`Type` is a
Lean keyword); `DetectedAt` is a `Nat` instant. -/
structure Protocol where
  ptype : String
  port : Nat
  url : String
  available : Bool
  detectedAt : Nat
deriving Repr, DecidableEq

/-- `models.RTSPStreamInfo` (FPS is the Go `float64`; none of the claims
depends on its arithmetic). -/
structure RTSPStream where
  url : String
  codec : String
  resolution : String
  fps : Float
  bitrate : Int
  audioCodec : String
  channels : Int
  available : Bool
  checkedAt : Nat
deriving Repr

/-- `models.Device`. -/
structure Device where
  ip : String
  mac : String
  hostname : String
  manufacturer : String
  model : String
  protocols : List Protocol
  rtspStreams : List RTSPStream
  discoveredAt : Nat
  lastSeen : Nat
deriving Repr

/-! ## Network environment

The observable behaviour of the scanned network, as far as the embedded code
reads it: whether a TCP connect to `ip:port` succeeds, the first line a
server sends back after the RTSP `OPTIONS` probe (`none` = I/O error), and
the reverse-DNS answer for a host. -/

structure NetEnv where
  tcpOpen : String → Nat → Bool
  rtspReadLine : String → Nat → Option String
  hostname : String → Option String

/-! ## RTSP detector (`internal/protocols/rtsp.go`, `RTSPDetector.Detect`) -/

/-- `RTSPDetector.Detect`. Returns the `Protocol` value together with a flag
recording whether the Go function returned a non-nil error. The `getStreams`
call made on success only logs and does not change the returned protocol, so
it is not modelled. -/
def rtspDetect (env : NetEnv) (ip : String) (port now : Nat) : Protocol × Bool :=
  let protocol : Protocol :=
    { ptype := "RTSP", port := port, url := "", available := false, detectedAt := now }
  if env.tcpOpen ip port then
    match env.rtspReadLine ip port with
    | none => (protocol, true)
    | some response =>
      if strContains response "RTSP/1.0" then
        if strContains response "200" || strContains response "401" then
          ({ protocol with
              available := true,
              url := "rtsp://" ++ ip ++ ":" ++ Nat.repr port }, false)
        else (protocol, false)
      else (protocol, true)
  else (protocol, true)

/-! ## TCP sweep (`NetworkScanner`, source part with `scanHost`) -/

/-- `NetworkScanner.detectProtocol`: the tag and URL recorded for an open
port, chosen purely by port number. -/
def detectProtocol (ip : String) (port now : Nat) : Protocol :=
  if port == 554 || port == 8554 then
    { ptype := "RTSP", port := port,
      url := "rtsp://" ++ ip ++ ":" ++ Nat.repr port,
      available := true, detectedAt := now }
  else if port == 1935 then
    { ptype := "RTMP", port := port,
      url := "rtmp://" ++ ip ++ ":" ++ Nat.repr port,
      available := true, detectedAt := now }
  else if port == 80 || port == 8080 then
    { ptype := "HTTP", port := port,
      url := "http://" ++ ip ++ ":" ++ Nat.repr port,
      available := true, detectedAt := now }
  else
    { ptype := "UNKNOWN", port := port,
      url := "tcp://" ++ ip ++ ":" ++ Nat.repr port,
      available := true, detectedAt := now }

/-- The port loop of `NetworkScanner.scanHost`: for each configured port, if
the TCP connect succeeds the protocol chosen by `detectProtocol` is appended.
(The Go loop runs its iterations in goroutines; the embedding fixes the
configured-port order for the appended results.) -/
def scanHostPorts (env : NetEnv) (ip : String) (now : Nat) :
    List Nat → List Protocol → List Protocol
  | [], acc => acc
  | p :: ps, acc =>
    scanHostPorts env ip now ps
      (if env.tcpOpen ip p then acc ++ [detectProtocol ip p now] else acc)

/-- `NetworkScanner.scanHost`: build the device record for one host, or
`none` when no port was open. -/
def scanHost (env : NetEnv) (ports : List Nat) (ip : String) (now : Nat) :
    Option Device :=
  let hostname :=
    match env.hostname ip with
    | some h => h
    | none => ""
  let protos := scanHostPorts env ip now ports []
  if protos.isEmpty then none
  else some
    { ip := ip, mac := "", hostname := hostname, manufacturer := "",
      model := "", protocols := protos, rtspStreams := [],
      discoveredAt := now, lastSeen := 0 }

/-! ## MD5 (`crypto/md5` as used by `md5Hash` in the RTSP client)

A direct functional MD5 over byte lists, with 32-bit words as `Nat` reduced
`% 2^32`. Only ASCII strings reach it in this code base, so the byte encoding
of a string is `Char.toNat` per character. -/

namespace MD5

def mask32 : Nat := 4294967296

def not32 (x : Nat) : Nat := 4294967295 - x

def add32 (a b : Nat) : Nat := (a + b) % mask32

/-- rotate a 32-bit word left by `s` (for `x < 2^32`, `0 < s < 32`). -/
def rotl (x s : Nat) : Nat := ((x <<< s) % mask32) + (x >>> (32 - s))

/-- the 64 sine-derived round constants. -/
def kTable : Array Nat := #[
  3614090360, 3905402710, 606105819, 3250441966, 4118548399, 1200080426,
  2821735955, 4249261313, 1770035416, 2336552879, 4294925233, 2304563134,
  1804603682, 4254626195, 2792965006, 1236535329, 4129170786, 3225465664,
  643717713, 3921069994, 3593408605, 38016083, 3634488961, 3889429448,
  568446438, 3275163606, 4107603335, 1163531501, 2850285829, 4243563512,
  1735328473, 2368359562, 4294588738, 2272392833, 1839030562, 4259657740,
  2763975236, 1272893353, 4139469664, 3200236656, 681279174, 3936430074,
  3572445317, 76029189, 3654602809, 3873151461, 530742520, 3299628645,
  4096336452, 1126891415, 2878612391, 4237533241, 1700485571, 2399980690,
  4293915773, 2240044497, 1873313359, 4264355552, 2734768916, 1309151649,
  4149444226, 3174756917, 718787259, 3951481745]

/-- the per-round left-rotation amounts. -/
def sTable : Array Nat := #[
  7, 12, 17, 22, 7, 12, 17, 22, 7, 12, 17, 22, 7, 12, 17, 22,
  5, 9, 14, 20, 5, 9, 14, 20, 5, 9, 14, 20, 5, 9, 14, 20,
  4, 11, 16, 23, 4, 11, 16, 23, 4, 11, 16, 23, 4, 11, 16, 23,
  6, 10, 15, 21, 6, 10, 15, 21, 6, 10, 15, 21, 6, 10, 15, 21]

/-- one of the 64 rounds, acting on the state `(a, b, c, d)` with the current
block decoded into 16 little-endian words `m`. -/
def round (m : Array Nat) (st : Nat × Nat × Nat × Nat) (i : Nat) :
    Nat × Nat × Nat × Nat :=
  let (a, b, c, d) := st
  let (f, g) :=
    if i < 16 then ((b &&& c) ||| (not32 b &&& d), i)
    else if i < 32 then ((d &&& b) ||| (not32 d &&& c), (5 * i + 1) % 16)
    else if i < 48 then (b ^^^ c ^^^ d, (3 * i + 5) % 16)
    else (c ^^^ (b ||| not32 d), (7 * i) % 16)
  let f2 := (f + a + kTable.getD i 0 + m.getD g 0) % mask32
  (d, add32 b (rotl f2 (sTable.getD i 0)), b, c)

/-- decode a 64-byte block into its 16 little-endian words. -/
def blockWords (block : List Nat) : Array Nat :=
  (Array.range 16).map fun j =>
    block.getD (4 * j) 0 + 256 * block.getD (4 * j + 1) 0 +
      65536 * block.getD (4 * j + 2) 0 + 16777216 * block.getD (4 * j + 3) 0

/-- run the 64 rounds of one block and add the result into the state. -/
def processBlock (st : Nat × Nat × Nat × Nat) (block : List Nat) :
    Nat × Nat × Nat × Nat :=
  let (a, b, c, d) := (List.range 64).foldl (round (blockWords block)) st
  (add32 st.1 a, add32 st.2.1 b, add32 st.2.2.1 c, add32 st.2.2.2 d)

/-- MD5 padding: `0x80`, zeros to 56 mod 64, then the 64-bit little-endian
bit length. -/
def pad (msg : List Nat) : List Nat :=
  let z := (64 + 56 - (msg.length + 1) % 64) % 64
  let bits := 8 * msg.length
  msg ++ [128] ++ List.replicate z 0 ++
    (List.range 8).map (fun j => bits >>> (8 * j) % 256)

/-- the four 32-bit digest words of a byte message. -/
def digestWords (msg : List Nat) : Nat × Nat × Nat × Nat :=
  let padded := pad msg
  let blocks := (List.range (padded.length / 64)).map
    fun i => (padded.drop (64 * i)).take 64
  blocks.foldl processBlock (1732584193, 4023233417, 2562383102, 271733878)

/-- the 16 digest bytes (little-endian per word). -/
def digestBytes (msg : List Nat) : List Nat :=
  let (a, b, c, d) := digestWords msg
  [a, b, c, d].flatMap fun w => (List.range 4).map fun j => w >>> (8 * j) % 256

def hexChar (n : Nat) : Char :=
  if n < 10 then Char.ofNat (48 + n) else Char.ofNat (87 + n)

/-- lowercase hex of a byte list, as Go `fmt.Sprintf` with the x verb
prints a byte array. -/
def bytesToHex (bs : List Nat) : String :=
  String.mk (bs.flatMap fun b => [hexChar (b / 16), hexChar (b % 16)])

end MD5

/-- the byte encoding of the (ASCII) strings handled by this code. -/
def strBytes (s : String) : List Nat := s.toList.map Char.toNat

/-- `md5Hash` from the RTSP client: lowercase-hex MD5 of a string. -/
def md5Hash (s : String) : String := MD5.bytesToHex (MD5.digestBytes (strBytes s))

/-! ## Base64 (`encoding/base64` StdEncoding, used by Basic auth) -/

def b64Char (n : Nat) : Char :=
  if n < 26 then Char.ofNat (65 + n)
  else if n < 52 then Char.ofNat (97 + (n - 26))
  else if n < 62 then Char.ofNat (48 + (n - 52))
  else if n == 62 then '+' else '/'

def b64Chars : List Nat → List Char
  | [] => []
  | [b0] =>
    [b64Char (b0 / 4), b64Char (b0 % 4 * 16), '=', '=']
  | [b0, b1] =>
    [b64Char (b0 / 4), b64Char (b0 % 4 * 16 + b1 / 16), b64Char (b1 % 16 * 4), '=']
  | b0 :: b1 :: b2 :: rest =>
    b64Char (b0 / 4) :: b64Char (b0 % 4 * 16 + b1 / 16) ::
      b64Char (b1 % 16 * 4 + b2 / 64) :: b64Char (b2 % 64) :: b64Chars rest

def base64Encode (bs : List Nat) : String := String.mk (b64Chars bs)

/-! ## RTSP session client (source part with `NewClient` / `sendRequest`) -/

/-- the mutable state of `rtsp.Client` relevant to the claims (connection
handles and timeout are not data). -/
structure Client where
  username : String
  password : String
  sessionID : String
  cseq : Nat
  authMethod : String
  realm : String
  nonce : String
deriving Repr, DecidableEq

/-- `NewClient`: the freshly connected client state, `cseq` initialised
to 1. -/
def newClient (user pass : String) : Client :=
  { username := user, password := pass, sessionID := "", cseq := 1,
    authMethod := "", realm := "", nonce := "" }

/-- the CSeq bookkeeping of `Client.sendRequest`: the counter is incremented
first and the incremented value is what the `CSeq:` header carries. Returns
(carried value, updated client). -/
def sendRequestCSeq (c : Client) : Nat × Client :=
  let c2 := { c with cseq := c.cseq + 1 }
  (c2.cseq, c2)

/-- the CSeq values carried by `n` successive requests of one session. -/
def sessionCSeqs : Client → Nat → List Nat × Client
  | c, 0 => ([], c)
  | c, n + 1 =>
    let (v, c2) := sendRequestCSeq c
    let (vs, c3) := sessionCSeqs c2 n
    (v :: vs, c3)

/-- `Client.buildAuthHeader`. -/
def buildAuthHeader (c : Client) (method path : String) : String :=
  if c.authMethod == "Basic" then
    "Basic " ++ base64Encode (strBytes (c.username ++ ":" ++ c.password))
  else if c.authMethod == "Digest" then
    let ha1 := md5Hash (c.username ++ ":" ++ c.realm ++ ":" ++ c.password)
    let ha2 := md5Hash (method ++ ":" ++ path)
    let response := md5Hash (ha1 ++ ":" ++ c.nonce ++ ":" ++ ha2)
    "Digest username=\"" ++ c.username ++ "\", realm=\"" ++ c.realm ++
      "\", nonce=\"" ++ c.nonce ++ "\", uri=\"" ++ path ++
      "\", response=\"" ++ response ++ "\""
  else ""

/-! ## RTSP response parsing (`Client.readResponse`) -/

/-- `bufio.Reader.ReadString` with delimiter `\n` on a char list: the read
line includes the delimiter; `none` models hitting EOF first, which the
caller treats as an error. -/
def readLineCons : List Char → Option (List Char × List Char)
  | [] => none
  | c :: cs =>
    if c == '\n' then some ([c], cs)
    else match readLineCons cs with
      | none => none
      | some (l, r) => some (c :: l, r)

/-- `models`-style header map: insertion overwrites an existing key, as a Go
map assignment does. -/
def headerPut (hs : List (String × String)) (k v : String) :
    List (String × String) :=
  match hs with
  | [] => [(k, v)]
  | (k0, v0) :: rest =>
    if k0 == k then (k, v) :: rest else (k0, v0) :: headerPut rest k v

def headerGet (hs : List (String × String)) (k : String) : Option String :=
  (hs.find? (fun kv => kv.1 == k)).map (fun kv => kv.2)

/-- the header loop of `readResponse`: lines until a blank one, each split on
the first colon; `none` models an I/O error (EOF before the blank line).
Each iteration consumes at least one character, so fuel `input.length + 1`
(supplied by `readHeaders`) always suffices; the fuel is only structural
bookkeeping for the recursion. -/
def readHeadersFuel : Nat → List Char → List (String × String) →
    Option (List (String × String) × List Char)
  | 0, _, _ => none
  | fuel + 1, input, acc =>
    match readLineCons input with
    | none => none
    | some (line, rest) =>
      let t := listTrimSpace line
      if t.isEmpty then some (acc, rest)
      else
        match splitNChar ':' 2 t with
        | [k, v] =>
          readHeadersFuel fuel rest
            (headerPut acc (String.mk (listTrimSpace k))
              (String.mk (listTrimSpace v)))
        | _ => readHeadersFuel fuel rest acc

def readHeaders (input : List Char) (acc : List (String × String)) :
    Option (List (String × String) × List Char) :=
  readHeadersFuel (input.length + 1) input acc

/-- `rtsp.Response`. -/
structure RTSPResponse where
  statusCode : Int
  statusText : String
  headers : List (String × String)
  body : String
deriving Repr, DecidableEq

/-- `Client.readResponse` on the byte stream `input` delivered by the
server; `none` models any of the error returns. The status line is split on
spaces into at most three parts; the version part is bound but never
examined. -/
def readResponse (input : String) : Option RTSPResponse :=
  match readLineCons input.toList with
  | none => none
  | some (statusLine, rest) =>
    match splitNChar ' ' 3 (listTrimSpace statusLine) with
    | [_version, codeChars, reasonChars] =>
      match atoiChars codeChars with
      | none => none
      | some code =>
        match readHeaders rest [] with
        | none => none
        | some (hs, rest2) =>
          let base : RTSPResponse :=
            { statusCode := code, statusText := String.mk reasonChars,
              headers := hs, body := "" }
          match headerGet hs "Content-Length" with
          | none => some base
          | some clStr =>
            match atoiChars clStr.toList with
            | none => some base
            | some cl =>
              if 0 < cl then
                if rest2.length < cl.toNat then none
                else some { base with body := String.mk (rest2.take cl.toNat) }
              else some base
    | _ => none

/-! ## Orchestrator merge (`internal/scanner/detector.go`, `mergeDevices`) -/

/-- the `"%s:%d"` map key built from a protocol entry. -/
def protoKey (p : Protocol) : String := p.ptype ++ ":" ++ Nat.repr p.port

/-- does the existing protocol list already carry this key? (membership in
the `protocolMap` built from the existing list). -/
def hasProtoKey (l : List Protocol) (k : String) : Bool :=
  l.any (fun q => protoKey q == k)

/-- the protocol-list part of `mergeDevices`: entries of the incoming list
whose `(tag, port)` key is absent from the existing list are appended; the
key map is built from the existing list once and not extended during the
loop, exactly as in the source. -/
def mergeProtocols (ex nw : List Protocol) : List Protocol :=
  ex ++ nw.filter (fun p => !(hasProtoKey ex (protoKey p)))

/-- the scalar-attribute rule of `mergeDevices`: overwrite only an empty
stored value, and only with a non-empty incoming one. -/
def mergeStr (a b : String) : String :=
  if a == "" && b != "" then b else a

/-- `Detector.mergeDevices` (the incoming device is merged into the existing
one; `now` is the `time.Now()` read for the `LastSeen` update). -/
def mergeDevices (now : Nat) (ex nw : Device) : Device :=
  { ex with
    protocols := mergeProtocols ex.protocols nw.protocols,
    manufacturer := mergeStr ex.manufacturer nw.manufacturer,
    model := mergeStr ex.model nw.model,
    hostname := mergeStr ex.hostname nw.hostname,
    mac := mergeStr ex.mac nw.mac,
    lastSeen := if ex.discoveredAt < nw.discoveredAt then now else ex.lastSeen }

/-! ## Device registry (source part with `DeviceRegistry`) -/

/-- the registry device map, keyed by IP (association list standing for the
Go map). -/
def Registry := List (String × Device)

def regLookup (r : List (String × Device)) (ip : String) : Option Device :=
  (r.find? (fun kv => kv.1 == ip)).map (fun kv => kv.2)

def regPut (r : List (String × Device)) (ip : String) (d : Device) :
    List (String × Device) :=
  match r with
  | [] => [(ip, d)]
  | (k, v) :: rest =>
    if k == ip then (ip, d) :: rest else (k, v) :: regPut rest ip d

/-- `DeviceRegistry.AddDevice`: on an existing IP every attribute is replaced
with the incoming value (`LastSeen` set to now, `DiscoveredAt` kept); a new
IP is inserted with both timestamps set to now. -/
def addDevice (now : Nat) (r : List (String × Device)) (d : Device) :
    List (String × Device) :=
  match regLookup r d.ip with
  | some ex =>
    regPut r d.ip
      { ex with
        mac := d.mac, hostname := d.hostname,
        manufacturer := d.manufacturer, model := d.model,
        protocols := d.protocols, rtspStreams := d.rtspStreams,
        lastSeen := now }
  | none =>
    regPut r d.ip { d with discoveredAt := now, lastSeen := now }

/-! ## TTL cache (source part with `SaveToCache` / `GetFromCache`) -/

structure CachedDevice where
  device : Device
  expiresAt : Nat

/-- `registry.Cache`: `lastScan = none` models the zero `time.Time` checked
with `IsZero`. -/
structure Cache where
  devices : List (String × CachedDevice)
  defaultTTL : Nat
  lastScan : Option Nat
  scanResults : List Device

def cachePut (m : List (String × CachedDevice)) (ip : String)
    (cd : CachedDevice) : List (String × CachedDevice) :=
  match m with
  | [] => [(ip, cd)]
  | (k, v) :: rest =>
    if k == ip then (ip, cd) :: rest else (k, v) :: cachePut rest ip cd

/-- `DeviceRegistry.SaveToCache` at instant `now`: the map is rebuilt from
scratch, every entry expiring at `now + TTL`. -/
def saveToCache (now : Nat) (c : Cache) (devs : List Device) : Cache :=
  let expiresAt := now + c.defaultTTL
  { c with
    devices := devs.foldl (fun m d => cachePut m d.ip ⟨d, expiresAt⟩) [],
    lastScan := some now,
    scanResults := devs }

/-- `DeviceRegistry.GetFromCache` at instant `now`: absent when no scan was
saved or `now` is after `lastScan + TTL`; otherwise the entries whose
`ExpiresAt` is still strictly in the future, absent again if none survive. -/
def getFromCache (now : Nat) (c : Cache) : List Device × Bool :=
  match c.lastScan with
  | none => ([], false)
  | some ls =>
    if ls + c.defaultTTL < now then ([], false)
    else
      let valid := c.devices.filterMap
        (fun kv => if now < kv.2.expiresAt then some kv.2.device else none)
      if valid.isEmpty then ([], false) else (valid, true)

/-! ## Network utilities (`pkg/utils/network.go`)

IPv4 addresses are 32-bit naturals. `net.ParseCIDR` is embedded by
`parseCIDR`, returning the masked network address and the ones count;
`GetSubnetHosts` becomes a fueled loop, since the Go `for ... Contains`
loop's termination is not structural (and indeed fails for a `/0` mask). -/

/-- one decimal field of `parseIPv4`: 1–3 digits, value ≤ 255, no leading
zero (as `net` rejects since Go 1.17). -/
def parseOctet (s : List Char) : Option Nat :=
  if s.isEmpty then none
  else if !s.all (fun c => c.isDigit) then none
  else if s.length > 1 && s.headD '0' == '0' then none
  else
    let v := s.foldl (fun acc c => acc * 10 + (c.toNat - 48)) 0
    if v ≤ 255 then some v else none

/-- `parseIPv4` as a 32-bit natural (the Go loop reads exactly four
dot-separated fields). -/
def parseIPv4 (s : String) : Option Nat :=
  match s.toList.splitOn '.' with
  | [p1, p2, p3, p4] =>
    match parseOctet p1, parseOctet p2, parseOctet p3, parseOctet p4 with
    | some a, some b, some c, some d =>
      some (((a * 256 + b) * 256 + c) * 256 + d)
    | _, _, _, _ => none
  | _ => none

/-- the ones-count field after the slash: decimal digits, value ≤ 32 (Go's
`dtoi` plus the range check in `ParseCIDR`). -/
def parseOnes (s : List Char) : Option Nat :=
  if s.isEmpty then none
  else if !s.all (fun c => c.isDigit) then none
  else
    let v := s.foldl (fun acc c => acc * 10 + (c.toNat - 48)) 0
    if v ≤ 32 then some v else none

/-- `net.ParseCIDR`, returning `(masked network, ones)`: the address part is
masked with the ones-count mask exactly as the returned `IPNet.IP` is. -/
def parseCIDR (s : String) : Option (Nat × Nat) :=
  match s.toList.splitOn '/' with
  | [addr, mask] =>
    match parseIPv4 (String.mk addr), parseOnes mask with
    | some ip, some n => some ((ip >>> (32 - n)) <<< (32 - n), n)
    | _, _ => none
  | _ => none

/-- `utils.ParseSubnet` for a non-empty subnet string: parse as CIDR; if that
fails and the string has no slash, retry once with `/24` appended. (The
empty-string auto-detection path reads the host's interfaces and is outside
this model.) -/
def parseSubnet (s : String) : Option (Nat × Nat) :=
  match parseCIDR s with
  | some r => some r
  | none =>
    if strContains s "/" then none
    else parseCIDR (s ++ "/24")

/-- `net.IPNet.Contains` for the parsed network. -/
def cidrContains (netw n ip : Nat) : Bool :=
  ip >>> (32 - n) == netw >>> (32 - n)

/-- `net.IP.String` for a 4-byte address. -/
def ipToStr (a : Nat) : String :=
  Nat.repr (a >>> 24 % 256) ++ "." ++ Nat.repr (a >>> 16 % 256) ++ "." ++
    Nat.repr (a >>> 8 % 256) ++ "." ++ Nat.repr (a % 256)

/-- the broadcast address `ip | ^mask` computed in `GetSubnetHosts`; on the
already-masked network address the bitwise or with the complemented mask is
exactly this addition. -/
def broadcastOf (netw n : Nat) : Nat := netw + ((1 <<< (32 - n)) - 1)

/-- the `for ip := ...; Contains(ip); incrementIP(ip)` loop of
`GetSubnetHosts`, with explicit fuel; `incrementIP` is increment modulo
`2^32` (the Go byte-array increment wraps around). `none` means the fuel ran
out, standing for the loop still running after that many iterations. -/
def hostsLoop (netw n : Nat) : Nat → Nat → List String → Option (List String)
  | 0, _, _ => none
  | fuel + 1, ip, acc =>
    if cidrContains netw n ip then
      hostsLoop netw n fuel ((ip + 1) % 4294967296)
        (if ip != netw && ip != broadcastOf netw n then acc ++ [ipToStr ip]
         else acc)
    else some acc

inductive HostsResult where
  | parseError
  | noFuel
  | ok (hosts : List String)
deriving Repr, DecidableEq

/-- `utils.GetSubnetHosts`, fueled. -/
def getSubnetHosts (fuel : Nat) (s : String) : HostsResult :=
  match parseSubnet s with
  | none => .parseError
  | some (netw, n) =>
    match hostsLoop netw n fuel netw [] with
    | none => .noFuel
    | some hosts => .ok hosts

/-- the ascending host-address list between network and broadcast, the
reference value `GetSubnetHosts` is checked against. -/
def hostStrings (netw n : Nat) : List String :=
  (List.range (1 <<< (32 - n))).filterMap fun i =>
    if i ≠ 0 ∧ i ≠ (1 <<< (32 - n)) - 1 then some (ipToStr (netw + i)) else none

/-! ## SDP parser (`internal/rtsp/parser.go`)

Transcribed over `List Char` (the SDP data is ASCII byte text). Every Go
slice or index expression that would panic when out of range is modelled by
an `Option`-valued operation returning `none` exactly there, and the whole
parse is threaded through the `Option` monad: `ParseSDP` returning `none`
would mean a panic in the Go original. -/

/-- Go `s[i:]`: panics unless `i ≤ len s`. -/
def goSliceFrom (l : List Char) (i : Nat) : Option (List Char) :=
  if i ≤ l.length then some (l.drop i) else none

/-- Go `s[i:j]`: panics unless `i ≤ j ≤ len s`. -/
def goSliceRange (l : List Char) (i j : Nat) : Option (List Char) :=
  if i ≤ j ∧ j ≤ l.length then some ((l.take j).drop i) else none

/-- Go `s[i]`: panics unless `i < len s`. -/
def goIndex (l : List α) (i : Nat) : Option α := l.get? i

/-- `strings.Split` (split on every occurrence, empty parts kept). -/
def splitAllAux (sep : Char) : List Char → List Char → List (List Char)
  | [], cur => [cur.reverse]
  | c :: cs, cur =>
    if c == sep then cur.reverse :: splitAllAux sep cs []
    else splitAllAux sep cs (c :: cur)

def splitAllChar (sep : Char) (l : List Char) : List (List Char) :=
  splitAllAux sep l []

/-- `strings.Fields` (split on whitespace runs, no empty parts). -/
def fieldsAux : List Char → List Char → List (List Char)
  | [], cur => if cur.isEmpty then [] else [cur.reverse]
  | c :: cs, cur =>
    if isSpaceChar c then
      if cur.isEmpty then fieldsAux cs [] else cur.reverse :: fieldsAux cs []
    else fieldsAux cs (c :: cur)

def fieldsChars (l : List Char) : List (List Char) := fieldsAux l []

/-- `strings.Index` for a single-character needle, as `Option`. -/
def indexOfChar (sep : Char) (l : List Char) : Option Nat :=
  l.findIdx? (fun c => c == sep)

/-- `strings.ToUpper` (ASCII data). -/
def upperChars (l : List Char) : List Char := l.map Char.toUpper

def startsWithStr (l : List Char) (pat : String) : Bool :=
  listStartsWith pat.toList l

def containsStr (l : List Char) (pat : String) : Bool :=
  listContainsSub pat.toList l

/-- `strconv.ParseFloat` restricted to the plain decimal forms
(`[sign] digits [.digits] [(e|E) [sign] digits]`, also `.5` / `5.`) that SDP
framerates use; other spellings Go accepts (hex floats, `Inf`, `NaN`) are
rejected here. Totality of the parser does not depend on this choice: both
outcomes are handled. -/
def parseFloatChars (s : List Char) : Option Float :=
  let digitsVal : List Char → Nat :=
    fun l => l.foldl (fun acc c => acc * 10 + (c.toNat - 48)) 0
  let parseBody : List Char → Option Float := fun body =>
    let (expPart, mantPart) :=
      match splitAllChar 'e' (body.map Char.toLower) with
      | [m, e] => (some e, m)
      | _ => (none, body.map Char.toLower)
    let mant? : Option (Nat × Nat) :=
      match splitAllChar '.' mantPart with
      | [ipart, fpart] =>
        if (ipart.isEmpty && fpart.isEmpty) ||
            !ipart.all Char.isDigit || !fpart.all Char.isDigit then none
        else some (digitsVal (ipart ++ fpart), fpart.length)
      | [ipart] =>
        if ipart.isEmpty || !ipart.all Char.isDigit then none
        else some (digitsVal ipart, 0)
      | _ => none
    let exp? : Option Int :=
      match expPart with
      | none => some 0
      | some e =>
        let (sgn, digits) :=
          match e with
          | '-' :: rest => ((-1 : Int), rest)
          | '+' :: rest => ((1 : Int), rest)
          | rest => ((1 : Int), rest)
        if digits.isEmpty || !digits.all Char.isDigit then none
        else some (sgn * (digitsVal digits : Int))
    match mant?, exp? with
    | some (m, fracLen), some e =>
      let scaled : Int := e - (fracLen : Int)
      let base := Float.ofNat m
      some (if 0 ≤ scaled then base * Float.ofNat (10 ^ scaled.toNat)
            else base / Float.ofNat (10 ^ (-scaled).toNat))
    | _, _ => none
  match s with
  | '-' :: rest => (parseBody rest).map (fun f => -f)
  | '+' :: rest => parseBody rest
  | rest => parseBody rest

structure VideoTrack where
  codec : String
  resolution : String
  fps : Float
  bitrate : Int
  profile : String
  level : String
deriving Repr

structure AudioTrack where
  codec : String
  channels : Int
  sampleRate : Int
  bitrate : Int
deriving Repr

structure StreamInfo where
  url : String
  codec : String
  resolution : String
  fps : Float
  bitrate : Int
  audioCodec : String
  channels : Int
  available : Bool
  videoTracks : List VideoTrack
  audioTracks : List AudioTrack
deriving Repr

/-- `rtsp.MediaDescription` (only its `Type` field is ever read). -/
structure MediaDescription where
  mtype : String
  codec : String
  format : String
  width : Int
  height : Int
  fps : Float
  bitrate : Int
  profile : String
  level : String
  channels : Int
  sampleRate : Int
deriving Repr

def emptyVideoTrack : VideoTrack :=
  { codec := "", resolution := "", fps := 0.0, bitrate := 0,
    profile := "", level := "" }

def emptyAudioTrack : AudioTrack :=
  { codec := "", channels := 0, sampleRate := 0, bitrate := 0 }

def emptyMedia (t : String) : MediaDescription :=
  { mtype := t, codec := "", format := "", width := 0, height := 0,
    fps := 0.0, bitrate := 0, profile := "", level := "",
    channels := 0, sampleRate := 0 }

def updateLast (l : List α) (f : α → α) : List α :=
  match l with
  | [] => []
  | [x] => [f x]
  | x :: xs => x :: updateLast xs f

/-- `normalizeCodec`. -/
def normalizeCodec (codec : List Char) : String :=
  let c := upperChars codec
  if containsStr c "H264" || containsStr c "H.264" || c == "AVC".toList then
    "H.264"
  else if containsStr c "H265" || containsStr c "H.265" || c == "HEVC".toList then
    "H.265"
  else if containsStr c "MJPEG" || containsStr c "JPEG" then "MJPEG"
  else if containsStr c "MPEG4" || containsStr c "MPEG-4" then "MPEG-4"
  else String.mk c

/-- `normalizeAudioCodec`. -/
def normalizeAudioCodec (codec : List Char) : String :=
  let c := upperChars codec
  if containsStr c "AAC" then "AAC"
  else if containsStr c "PCM" then "PCM"
  else if containsStr c "PCMU" || containsStr c "PCMA" then "G.711"
  else if containsStr c "G722" then "G.722"
  else String.mk c

/-- `extractResolutionFromSPS`: the source's stub always answers the empty
string. -/
def extractResolutionFromSPS (_sps : List Char) : String := ""

/-- Go `%d` for `int`. -/
def intRepr (i : Int) : String :=
  if i < 0 then "-" ++ Nat.repr i.natAbs else Nat.repr i.natAbs

/-- one `key=value` pair of the `fmtp` parameter list (the body of the
`parseFmtpParams` loop). -/
def parseFmtpPair (media : MediaDescription) (info : StreamInfo)
    (pairRaw : List Char) : Option StreamInfo := do
  let pair := listTrimSpace pairRaw
  match indexOfChar '=' pair with
  | none => pure info
  | some idx =>
    let key ← goSliceRange pair 0 idx
    let tail ← goSliceFrom pair (idx + 1)
    let key := listTrimSpace key
    let value := listTrimSpace tail
    if media.mtype == "video" && !info.videoTracks.isEmpty then
      if key == "profile-level-id".toList then
        if value.length ≥ 6 then do
          let profile ← goSliceRange value 0 2
          let level ← goSliceRange value 4 6
          let tracks := updateLast info.videoTracks
            (fun t => { t with profile := String.mk profile,
                               level := String.mk level })
          pure { info with videoTracks := tracks }
        else pure info
      else if key == "sprop-parameter-sets".toList then
        let resolution := extractResolutionFromSPS value
        if resolution != "" then
          pure { info with
            videoTracks := updateLast info.videoTracks
              (fun t => { t with resolution := resolution }),
            resolution := resolution }
        else pure info
      else pure info
    else pure info

/-- `parseFmtpParams`. -/
def parseFmtpParams (params : List Char) (media : MediaDescription)
    (info : StreamInfo) : Option StreamInfo :=
  (splitAllChar ';' params).foldlM (parseFmtpPair media) info

/-- the `rtpmap:` block of `parseAttribute`. -/
def parseRtpmapAttr (attr : List Char) (media : MediaDescription)
    (info : StreamInfo) : Option StreamInfo :=
  if startsWithStr attr "rtpmap:" then do
    let payload ← goSliceFrom attr 7
    match fieldsChars payload with
    | _ :: codecInfo :: _ => do
      let codecParts := splitAllChar '/' codecInfo
      let codec ← goIndex codecParts 0
      if media.mtype == "video" then
        if !info.videoTracks.isEmpty then
          pure { info with
            videoTracks := updateLast info.videoTracks
              (fun t => { t with codec := normalizeCodec codec }),
            codec := normalizeCodec codec }
        else pure info
      else if media.mtype == "audio" then
        if !info.audioTracks.isEmpty then
          pure { info with
            audioTracks := updateLast info.audioTracks
              (fun t => { t with codec := normalizeAudioCodec codec }),
            audioCodec := normalizeAudioCodec codec }
        else pure info
      else pure info
    | _ => pure info
  else pure info

/-- the `fmtp:` block of `parseAttribute`. -/
def parseFmtpAttr (attr : List Char) (media : MediaDescription)
    (info : StreamInfo) : Option StreamInfo :=
  if startsWithStr attr "fmtp:" then do
    let payload ← goSliceFrom attr 5
    match splitNChar ' ' 2 payload with
    | [_, params] => parseFmtpParams params media info
    | _ => pure info
  else pure info

/-- the `framerate:` block of `parseAttribute`. -/
def parseFramerateAttr (attr : List Char) (media : MediaDescription)
    (info : StreamInfo) : Option StreamInfo :=
  if startsWithStr attr "framerate:" then do
    let payload ← goSliceFrom attr 10
    match parseFloatChars (listTrimSpace payload) with
    | some fps =>
      if media.mtype == "video" && !info.videoTracks.isEmpty then
        pure { info with
          videoTracks := updateLast info.videoTracks
            (fun t => { t with fps := fps }),
          fps := fps }
      else pure info
    | none => pure info
  else pure info

/-- the `x-dimensions:` block of `parseAttribute`. -/
def parseDimensionsAttr (attr : List Char) (media : MediaDescription)
    (info : StreamInfo) : Option StreamInfo :=
  if startsWithStr attr "x-dimensions:" then do
    let payload ← goSliceFrom attr 13
    let resolution := listTrimSpace payload
    match splitAllChar 'x' resolution with
    | [wPart, hPart] =>
      match atoiChars wPart, atoiChars hPart with
      | some width, some height =>
        let resolutionStr := intRepr width ++ "x" ++ intRepr height
        if media.mtype == "video" && !info.videoTracks.isEmpty then
          pure { info with
            videoTracks := updateLast info.videoTracks
              (fun t => { t with resolution := resolutionStr }),
            resolution := resolutionStr }
        else pure info
      | _, _ => pure info
    | _ => pure info
  else pure info

/-- the trailing `sprop-parameter-sets` block of `parseAttribute`. -/
def parseSpropAttr (attr : List Char) (media : MediaDescription)
    (info : StreamInfo) : Option StreamInfo :=
  if containsStr attr "sprop-parameter-sets=" then
    let resolution := extractResolutionFromSPS attr
    if resolution != "" then
      if media.mtype == "video" && !info.videoTracks.isEmpty then
        pure { info with
          videoTracks := updateLast info.videoTracks
            (fun t => { t with resolution := resolution }),
          resolution := resolution }
      else pure info
    else pure info
  else pure info

/-- `parseAttribute`: the five sequential attribute blocks of the source,
applied to `attr = line[2:]` (the caller guarantees the `x=` shape, so the
slice carries that requirement). -/
def parseAttribute (line : List Char) (media : MediaDescription)
    (info : StreamInfo) : Option StreamInfo := do
  let attr ← goSliceFrom line 2
  let info ← parseRtpmapAttr attr media info
  let info ← parseFmtpAttr attr media info
  let info ← parseFramerateAttr attr media info
  let info ← parseDimensionsAttr attr media info
  parseSpropAttr attr media info

/-- the per-line step of the `ParseSDP` loop, acting on the current media
section and the accumulated info. -/
def parseSDPLine (st : Option MediaDescription × StreamInfo)
    (rawLine : List Char) : Option (Option MediaDescription × StreamInfo) := do
  let (currentMedia, info) := st
  let line := listTrimSpace rawLine
  if line.isEmpty then pure st
  else if line.length < 2 then pure st
  else do
    let c1 ← goIndex line 1
    if c1 != '=' then pure st
    else do
      let mediaType ← goIndex line 0
      let value ← goSliceFrom line 2
      if mediaType == 'm' then
        match fieldsChars value with
        | kind :: _ :: _ =>
          if kind == "video".toList then
            pure (some (emptyMedia "video"),
              { info with videoTracks := info.videoTracks ++ [emptyVideoTrack] })
          else if kind == "audio".toList then
            pure (some (emptyMedia "audio"),
              { info with audioTracks := info.audioTracks ++ [emptyAudioTrack] })
          else pure st
        | _ => pure st
      else if mediaType == 'a' then
        match currentMedia with
        | some media => do
          let info2 ← parseAttribute line media info
          pure (currentMedia, info2)
        | none => pure st
      else pure st

/-- `rtsp.ParseSDP`. The Go function also always returns a `nil` error, so
the embedded result is the `StreamInfo` alone; `none` models a panic. -/
def parseSDP (sdp : String) : Option StreamInfo := do
  let info0 : StreamInfo :=
    { url := "", codec := "", resolution := "", fps := 0.0, bitrate := 0,
      audioCodec := "", channels := 0, available := false,
      videoTracks := [], audioTracks := [] }
  let lines := splitAllChar '\n' sdp.toList
  let (_, info) ← lines.foldlM parseSDPLine (none, info0)
  let info :=
    match info.videoTracks with
    | t :: _ =>
      { info with codec := t.codec, resolution := t.resolution,
                  fps := t.fps, bitrate := t.bitrate }
    | [] => info
  let info :=
    match info.audioTracks with
    | t :: _ => { info with audioCodec := t.codec, channels := t.channels }
    | [] => info
  pure info

/-! ## Concrete fixtures used by counterexamples and witnesses -/

/-- a host whose port 554 is open but served by a plain web server: the RTSP
detector's probe fails, while the sweep's port switch still labels it RTSP. -/
def webOn554Env : NetEnv :=
  { tcpOpen := fun _ p => p == 554,
    rtspReadLine := fun _ _ => some "HTTP/1.1 404 Not Found\r\n",
    hostname := fun _ => none }

/-- a server whose status line contains `RTSP/1.0` and `401` only as inner
substrings. -/
def substringTrapEnv : NetEnv :=
  { tcpOpen := fun _ _ => true,
    rtspReadLine := fun _ _ => some "HTTP/1.1 401 Via RTSP/1.0\r\n",
    hostname := fun _ => none }

def protoRTSPa : Protocol :=
  { ptype := "RTSP", port := 554, url := "rtsp://10.0.0.5:554/a",
    available := true, detectedAt := 0 }

def protoRTSPb : Protocol :=
  { ptype := "RTSP", port := 554, url := "rtsp://10.0.0.5:554/b",
    available := true, detectedAt := 0 }

def devAxis : Device :=
  { ip := "10.0.0.5", mac := "", hostname := "", manufacturer := "Axis",
    model := "", protocols := [protoRTSPa], rtspStreams := [],
    discoveredAt := 0, lastSeen := 0 }

def devSony : Device :=
  { ip := "10.0.0.5", mac := "", hostname := "", manufacturer := "Sony",
    model := "", protocols := [protoRTSPb], rtspStreams := [],
    discoveredAt := 0, lastSeen := 0 }

/-- a registered device with every scalar attribute already known. -/
def devFull : Device :=
  { ip := "10.0.0.9", mac := "aa:bb:cc:dd:ee:ff", hostname := "cam-9",
    manufacturer := "Hikvision", model := "DS-2CD2342WD-I",
    protocols := [protoRTSPa], rtspStreams := [], discoveredAt := 1,
    lastSeen := 1 }

/-- a re-scan record for the same IP carrying no scalar attributes. -/
def devBare : Device :=
  { ip := "10.0.0.9", mac := "", hostname := "", manufacturer := "",
    model := "", protocols := [protoRTSPa], rtspStreams := [],
    discoveredAt := 2, lastSeen := 2 }

def emptyCache : Cache :=
  { devices := [], defaultTTL := 10, lastScan := none, scanResults := [] }

/-! # Theorems

Helper lemmas first, then one theorem per claim (with its counterexample and
witness where the claim calls for them). -/

/-! ### The TCP sweep records a port switch (C1) -/

theorem detectProtocol_available (ip : String) (p now : Nat) :
    (detectProtocol ip p now).available = true := by
  unfold detectProtocol
  repeat' split
  all_goals rfl

theorem scanHostPorts_eq (env : NetEnv) (ip : String) (now : Nat) :
    ∀ (ports : List Nat) (acc : List Protocol),
      scanHostPorts env ip now ports acc =
        acc ++ (ports.filter (fun p => env.tcpOpen ip p)).map
          (fun p => detectProtocol ip p now) := by
  intro ports
  induction ports with
  | nil => intro acc; simp [scanHostPorts]
  | cons p ps ih =>
    intro acc
    simp only [scanHostPorts]
    by_cases h : env.tcpOpen ip p
    · rw [ih]
      simp [h]
    · rw [ih]
      simp [h]

/-- C1 (amended): for every host the TCP sweep reaches, the `Protocol`
entry recorded for an open port is `detectProtocol`, a pure port-number
switch (554/8554 → RTSP, 1935 → RTMP, 80/8080 → HTTP, otherwise UNKNOWN)
that marks the port available unconditionally; no protocol detector's
confirmation probe is consulted. -/
theorem scanHost_records_port_switch (env : NetEnv) (ports : List Nat)
    (ip : String) (now : Nat) (d : Device)
    (h : scanHost env ports ip now = some d) :
    d.protocols = (ports.filter (fun p => env.tcpOpen ip p)).map
        (fun p => detectProtocol ip p now) ∧
    d.protocols ≠ [] ∧
    (∀ p ∈ d.protocols, p.available = true) ∧
    (∀ p, (detectProtocol ip p now).ptype =
      if p = 554 ∨ p = 8554 then "RTSP"
      else if p = 1935 then "RTMP"
      else if p = 80 ∨ p = 8080 then "HTTP"
      else "UNKNOWN") := by
  unfold scanHost at h
  rw [scanHostPorts_eq] at h
  simp only [List.nil_append] at h
  by_cases hempty :
      ((ports.filter (fun p => env.tcpOpen ip p)).map
        (fun p => detectProtocol ip p now)).isEmpty
  · rw [if_pos hempty] at h
    exact absurd h (by simp)
  · rw [if_neg hempty] at h
    have hd : d.protocols = (ports.filter (fun p => env.tcpOpen ip p)).map
        (fun p => detectProtocol ip p now) := by
      cases h
      rfl
    refine ⟨hd, ?_, ?_, ?_⟩
    · rw [hd]
      intro hnil
      rw [hnil] at hempty
      exact hempty rfl
    · intro p hp
      rw [hd] at hp
      rcases List.mem_map.mp hp with ⟨q, _, rfl⟩
      exact detectProtocol_available ip q now
    · intro p
      unfold detectProtocol
      rcases Nat.decEq p 554 with h554 | h554 <;>
        rcases Nat.decEq p 8554 with h8554 | h8554 <;>
          rcases Nat.decEq p 1935 with h1935 | h1935 <;>
            rcases Nat.decEq p 80 with h80 | h80 <;>
              rcases Nat.decEq p 8080 with h8080 | h8080 <;>
                simp_all

/-- witness for C1: a concrete run of the sweep on a host whose port 554 is
open, evaluated and fed to the theorem. -/
theorem scanHost_records_port_switch_witness :
    ({ ip := "10.0.0.5", mac := "", hostname := "", manufacturer := "",
       model := "", protocols := [detectProtocol "10.0.0.5" 554 0],
       rtspStreams := [], discoveredAt := 0, lastSeen := 0 } : Device).protocols =
      ([554].filter (fun p => webOn554Env.tcpOpen "10.0.0.5" p)).map
        (fun p => detectProtocol "10.0.0.5" p 0) :=
  (scanHost_records_port_switch webOn554Env [554] "10.0.0.5" 0 _ rfl).1

/-- counterexample for C1: on that same host the RTSP detector's own probe
answers `HTTP/1.1 404 Not Found` and reports not-available, yet the sweep
records an available RTSP protocol entry — the recorded entry is not the
detector's probe result. -/
theorem scanHost_ignores_detector_counterexample :
    (scanHost webOn554Env [554] "10.0.0.7" 0).map (fun d => d.protocols) =
      some [{ ptype := "RTSP", port := 554, url := "rtsp://10.0.0.7:554",
              available := true, detectedAt := 0 }] ∧
    (rtspDetect webOn554Env "10.0.0.7" 554 0).1.available = false ∧
    (rtspDetect webOn554Env "10.0.0.7" 554 0).2 = true := by
  refine ⟨?_, ?_, ?_⟩ <;> decide

/-! ### RTSP detector acceptance (C2) -/

/-- C2 (amended): after a successful connect and read, the RTSP detector
reports the protocol present (Available = true, URL `rtsp://ip:port`) iff
the status line *contains* `RTSP/1.0` and *contains* the digit substring
`200` or `401` anywhere — a substring test, not a prefix test plus a parse
of the numeric status code; every other line reports not detected. -/
theorem rtspDetect_substring_acceptance (env : NetEnv) (ip : String)
    (port now : Nat) (line : String)
    (hopen : env.tcpOpen ip port = true)
    (hline : env.rtspReadLine ip port = some line) :
    ((rtspDetect env ip port now).1.available =
      (strContains line "RTSP/1.0" &&
        (strContains line "200" || strContains line "401"))) ∧
    ((rtspDetect env ip port now).1.available = true →
      (rtspDetect env ip port now).1.url =
        "rtsp://" ++ ip ++ ":" ++ Nat.repr port) ∧
    ((rtspDetect env ip port now).1.available = false →
      (rtspDetect env ip port now).1.url = "") := by
  unfold rtspDetect
  rw [hline]
  simp only [hopen, if_true]
  by_cases h1 : strContains line "RTSP/1.0"
  · by_cases h2 : strContains line "200" || strContains line "401"
    · simp [h1, h2]
    · simp [h1, h2]
  · simp [h1]

/-- witness for C2: the acceptance rule evaluated on the `200 OK` answer of
a genuine RTSP camera. -/
theorem rtspDetect_substring_acceptance_witness :
    (rtspDetect
      { tcpOpen := fun _ _ => true,
        rtspReadLine := fun _ _ => some "RTSP/1.0 200 OK\r\n",
        hostname := fun _ => none } "10.0.0.5" 554 0).1.available =
      (strContains "RTSP/1.0 200 OK\r\n" "RTSP/1.0" &&
        (strContains "RTSP/1.0 200 OK\r\n" "200" ||
          strContains "RTSP/1.0 200 OK\r\n" "401")) :=
  (rtspDetect_substring_acceptance _ "10.0.0.5" 554 0 _ rfl rfl).1

/-- counterexample for C2: a status line that does *not* start with
`RTSP/1.0` (it starts with `HTTP/1.1`) but contains both `RTSP/1.0` and
`401` as inner substrings is accepted as RTSP by the detector, though the
claim requires it to be reported as not detected. -/
theorem rtspDetect_counterexample :
    (rtspDetect substringTrapEnv "10.0.0.5" 554 0).1 =
      { ptype := "RTSP", port := 554, url := "rtsp://10.0.0.5:554",
        available := true, detectedAt := 0 } ∧
    listStartsWith "RTSP/1.0".toList "HTTP/1.1 401 Via RTSP/1.0\r\n".toList
      = false := by
  refine ⟨?_, ?_⟩ <;> decide

/-! ### CSeq bookkeeping (C4) -/

theorem sessionCSeqs_closed_form :
    ∀ (n : Nat) (c : Client),
      sessionCSeqs c n =
        ((List.range n).map (fun i => c.cseq + 1 + i),
          { c with cseq := c.cseq + n }) := by
  intro n
  induction n with
  | zero => intro c; simp [sessionCSeqs]
  | succ m ih =>
    intro c
    simp only [sessionCSeqs, sendRequestCSeq]
    rw [ih]
    show ((c.cseq + 1) :: (List.range m).map (fun i => c.cseq + 1 + 1 + i),
        ({ c with cseq := c.cseq + 1 + m } : Client)) =
      ((List.range (m + 1)).map (fun i => c.cseq + 1 + i),
        { c with cseq := c.cseq + (m + 1) })
    rw [Prod.mk.injEq]
    refine ⟨?_, ?_⟩
    · rw [List.range_succ_eq_map, List.map_cons, List.map_map]
      refine congrArg₂ List.cons (by omega) ?_
      apply List.map_congr_left
      intro i _
      simp only [Function.comp_apply]
      omega
    · have harith : c.cseq + 1 + m = c.cseq + (m + 1) := by omega
      rw [harith]

/-- C4 (amended): over one session the CSeq values carried by the
successive requests are `2, 3, 4, …` — strictly increasing and incremented
exactly once per request, but the first carried value is 2, not 1: `cseq`
starts at 1 and `sendRequest` increments it *before* writing the header. -/
theorem session_cseq_trace (user pass : String) (n : Nat) :
    (sessionCSeqs (newClient user pass) n).1 =
      (List.range n).map (fun i => 2 + i) ∧
    ((sessionCSeqs (newClient user pass) n).1).Pairwise (· < ·) ∧
    (sessionCSeqs (newClient user pass) n).2.cseq = 1 + n := by
  have hc : (newClient user pass).cseq = 1 := rfl
  have h := sessionCSeqs_closed_form n (newClient user pass)
  refine ⟨?_, ?_, ?_⟩
  · rw [h]
    apply List.map_congr_left
    intro i _
    omega
  · rw [h]
    refine List.Pairwise.map _ ?_ (List.pairwise_lt_range n)
    intro a b hab
    omega
  · rw [h]
    simp [hc]

/-- counterexample for C4: the concrete trace of five requests of a fresh
session carries CSeq values 2..6; the first element is not 1 as the claim
states. -/
theorem session_cseq_counterexample :
    (sessionCSeqs (newClient "admin" "12345") 5).1 = [2, 3, 4, 5, 6] ∧
    (sessionCSeqs (newClient "admin" "12345") 5).1.head? ≠ some 1 := by
  refine ⟨?_, ?_⟩ <;> decide

/-! ### Status-line parsing (C5) -/

/-- C5 (amended): the response reader parses `RTSP/1.0 200 OK` to
(200, OK) and `RTSP/1.0 401 Unauthorized` to (401, Unauthorized), but it
never examines the version token: `HTTP/1.1 200 OK` is *not* rejected — it
parses to (200, OK) exactly like an RTSP line. -/
theorem readResponse_parses_status_lines :
    readResponse "RTSP/1.0 200 OK\r\n\r\n" =
      some { statusCode := 200, statusText := "OK", headers := [], body := "" } ∧
    readResponse "RTSP/1.0 401 Unauthorized\r\n\r\n" =
      some { statusCode := 401, statusText := "Unauthorized", headers := [],
             body := "" } ∧
    readResponse "HTTP/1.1 200 OK\r\n\r\n" =
      some { statusCode := 200, statusText := "OK", headers := [], body := "" } := by
  refine ⟨?_, ?_, ?_⟩ <;> decide

/-- counterexample for C5: the claim says the non-RTSP status line
`HTTP/1.1 200 OK` is rejected as an error; the reader instead returns a
parsed response for it. -/
theorem readResponse_accepts_http_counterexample :
    (readResponse "HTTP/1.1 200 OK\r\n\r\n").isSome = true ∧
    readResponse "HTTP/1.1 200 OK\r\n\r\n" =
      some { statusCode := 200, statusText := "OK", headers := [], body := "" } := by
  refine ⟨?_, ?_⟩ <;> decide

/-! ### Digest authentication (C6) -/

/-- C6 (confirmed): in Digest state the Authorization header built by the
client carries `response = md5(md5(user:realm:pass) : nonce : md5(method:uri))`
for every choice of credentials, realm, nonce, method and uri; and at the
spec's concrete inputs (user admin, pass 12345, realm IPCam, nonce abc,
method DESCRIBE, uri rtsp://x/) the nested hash — here computed by a full
MD5 embedding — equals the true digest value
`dcb514104b57ccf6aa0546d97e854b39`, whose inner hashes are also pinned to
their true values. -/
theorem digest_auth_response_formula :
    (∀ u p r n m uri : String,
      buildAuthHeader
        { username := u, password := p, sessionID := "", cseq := 1,
          authMethod := "Digest", realm := r, nonce := n } m uri =
        "Digest username=\"" ++ u ++ "\", realm=\"" ++ r ++ "\", nonce=\"" ++
          n ++ "\", uri=\"" ++ uri ++ "\", response=\"" ++
          md5Hash (md5Hash (u ++ ":" ++ r ++ ":" ++ p) ++ ":" ++ n ++ ":" ++
            md5Hash (m ++ ":" ++ uri)) ++ "\"") ∧
    md5Hash (md5Hash ("admin" ++ ":" ++ "IPCam" ++ ":" ++ "12345") ++ ":" ++
        "abc" ++ ":" ++ md5Hash ("DESCRIBE" ++ ":" ++ "rtsp://x/")) =
      "dcb514104b57ccf6aa0546d97e854b39" ∧
    md5Hash "admin:IPCam:12345" = "4f1be267cbc21190d26e480ea227aa10" ∧
    md5Hash "DESCRIBE:rtsp://x/" = "2b5e81d91dba3f5afea082ac480c1d6c" := by
  refine ⟨fun u p r n m uri => rfl, by decide, by decide, by decide⟩

/-! ### Merge algebra (C7) -/

theorem mergeStr_assoc (a b c : String) :
    mergeStr (mergeStr a b) c = mergeStr a (mergeStr b c) := by
  unfold mergeStr
  by_cases ha : a = "" <;> by_cases hb : b = "" <;> by_cases hc : c = "" <;>
    simp_all

theorem hasProtoKey_cons (q : Protocol) (l : List Protocol) (k : String) :
    hasProtoKey (q :: l) k = ((protoKey q == k) || hasProtoKey l k) := by
  simp [hasProtoKey]

theorem hasProtoKey_append (l1 l2 : List Protocol) (k : String) :
    hasProtoKey (l1 ++ l2) k = (hasProtoKey l1 k || hasProtoKey l2 k) := by
  simp [hasProtoKey, List.any_append]

theorem hasProtoKey_filterNew (A : List Protocol) (k : String) :
    ∀ B, hasProtoKey (B.filter fun p => !(hasProtoKey A (protoKey p))) k =
      (hasProtoKey B k && !(hasProtoKey A k)) := by
  intro B
  induction B with
  | nil => simp [hasProtoKey]
  | cons q B ih =>
    rw [List.filter_cons, hasProtoKey_cons]
    by_cases hqk : protoKey q = k
    · subst hqk
      cases hq : hasProtoKey A (protoKey q)
      · simp [hq, hasProtoKey_cons, ih]
      · simp [hq, ih]
    · have hbeq : (protoKey q == k) = false := by simp [hqk]
      cases hq : hasProtoKey A (protoKey q) <;>
        cases hB : hasProtoKey B k <;>
          cases hA : hasProtoKey A k <;>
            simp_all [hasProtoKey_cons, ih]

theorem mergeProtocols_assoc (A B C : List Protocol) :
    mergeProtocols (mergeProtocols A B) C =
      mergeProtocols A (mergeProtocols B C) := by
  unfold mergeProtocols
  rw [List.filter_append, List.append_assoc]
  congr 1
  congr 1
  rw [List.filter_filter]
  apply List.filter_congr
  intro p _
  rw [hasProtoKey_append, hasProtoKey_filterNew]
  cases hA : hasProtoKey A (protoKey p) <;>
    cases hB : hasProtoKey B (protoKey p) <;> rfl

/-- C7 (amended): the merge is associative in every field except
`LastSeen` — the two associations agree on IP, the four scalar attributes,
the protocol list, the stream list and `DiscoveredAt` — but it is not
commutative: it is left-biased, so argument order decides both which of two
conflicting values survives and the order of the protocol list. -/
theorem mergeDevices_assoc_except_lastSeen (now : Nat) (d1 d2 d3 : Device) :
    (mergeDevices now (mergeDevices now d1 d2) d3).ip =
      (mergeDevices now d1 (mergeDevices now d2 d3)).ip ∧
    (mergeDevices now (mergeDevices now d1 d2) d3).mac =
      (mergeDevices now d1 (mergeDevices now d2 d3)).mac ∧
    (mergeDevices now (mergeDevices now d1 d2) d3).hostname =
      (mergeDevices now d1 (mergeDevices now d2 d3)).hostname ∧
    (mergeDevices now (mergeDevices now d1 d2) d3).manufacturer =
      (mergeDevices now d1 (mergeDevices now d2 d3)).manufacturer ∧
    (mergeDevices now (mergeDevices now d1 d2) d3).model =
      (mergeDevices now d1 (mergeDevices now d2 d3)).model ∧
    (mergeDevices now (mergeDevices now d1 d2) d3).protocols =
      (mergeDevices now d1 (mergeDevices now d2 d3)).protocols ∧
    (mergeDevices now (mergeDevices now d1 d2) d3).rtspStreams =
      (mergeDevices now d1 (mergeDevices now d2 d3)).rtspStreams ∧
    (mergeDevices now (mergeDevices now d1 d2) d3).discoveredAt =
      (mergeDevices now d1 (mergeDevices now d2 d3)).discoveredAt := by
  refine ⟨rfl, ?_, ?_, ?_, ?_, ?_, rfl, rfl⟩
  · exact mergeStr_assoc d1.mac d2.mac d3.mac
  · exact mergeStr_assoc d1.hostname d2.hostname d3.hostname
  · exact mergeStr_assoc d1.manufacturer d2.manufacturer d3.manufacturer
  · exact mergeStr_assoc d1.model d2.model d3.model
  · exact mergeProtocols_assoc d1.protocols d2.protocols d3.protocols

/-- counterexample for C7: two same-IP devices carrying a conflicting
manufacturer and a conflicting URL for the same `(tag, port)` key merge to
different devices depending on argument order — the merge is not
commutative. -/
theorem mergeDevices_not_commutative_counterexample :
    (mergeDevices 0 devAxis devSony).protocols ≠
      (mergeDevices 0 devSony devAxis).protocols ∧
    (mergeDevices 0 devAxis devSony).manufacturer ≠
      (mergeDevices 0 devSony devAxis).manufacturer := by
  refine ⟨?_, ?_⟩ <;> decide

/-! ### Scalar-attribute update discipline (C8) -/

theorem mergeStr_keeps_nonempty (a b : String) (h : a ≠ "") :
    mergeStr a b = a := by
  unfold mergeStr
  simp [h]

theorem mergeStr_fills_empty (a b : String) (ha : a = "") (hb : b ≠ "") :
    mergeStr a b = b := by
  unfold mergeStr
  simp [ha, hb]

theorem regLookup_regPut (r : List (String × Device)) (ip : String)
    (d : Device) : regLookup (regPut r ip d) ip = some d := by
  induction r with
  | nil => simp [regPut, regLookup, List.find?]
  | cons kv r ih =>
    rcases kv with ⟨k, v⟩
    by_cases h : k = ip
    · simp [regPut, h, regLookup, List.find?]
    · have hb : (k == ip) = false := by simp [h]
      simp only [regPut, hb, Bool.false_eq_true, if_false]
      simp only [regLookup, List.find?, hb] at ih ⊢
      exact ih

/-- C8 (amended): the first-non-empty-wins monotonicity holds on the
orchestrator's merge path — a non-empty stored MAC, hostname, manufacturer
or model is never replaced, and an empty one is filled by a non-empty
incoming value — but not on the registry path: `AddDevice` on an existing IP
replaces every scalar attribute (and the protocol and stream lists) with the
incoming values unconditionally, keeping only `DiscoveredAt`. -/
theorem merge_monotonic_addDevice_overwrites (now : Nat) (e d : Device)
    (r : List (String × Device)) :
    ((e.mac ≠ "" → (mergeDevices now e d).mac = e.mac) ∧
      (e.mac = "" → d.mac ≠ "" → (mergeDevices now e d).mac = d.mac)) ∧
    ((e.hostname ≠ "" → (mergeDevices now e d).hostname = e.hostname) ∧
      (e.hostname = "" → d.hostname ≠ "" →
        (mergeDevices now e d).hostname = d.hostname)) ∧
    ((e.manufacturer ≠ "" →
        (mergeDevices now e d).manufacturer = e.manufacturer) ∧
      (e.manufacturer = "" → d.manufacturer ≠ "" →
        (mergeDevices now e d).manufacturer = d.manufacturer)) ∧
    ((e.model ≠ "" → (mergeDevices now e d).model = e.model) ∧
      (e.model = "" → d.model ≠ "" → (mergeDevices now e d).model = d.model)) ∧
    (regLookup r d.ip = some e →
      (regLookup (addDevice now r d) d.ip).map
          (fun x => (x.mac, x.hostname, x.manufacturer, x.model,
            x.protocols, x.discoveredAt, x.lastSeen)) =
        some (d.mac, d.hostname, d.manufacturer, d.model,
          d.protocols, e.discoveredAt, now)) := by
  refine ⟨⟨?_, ?_⟩, ⟨?_, ?_⟩, ⟨?_, ?_⟩, ⟨?_, ?_⟩, ?_⟩
  · exact fun h => mergeStr_keeps_nonempty e.mac d.mac h
  · exact fun ha hb => mergeStr_fills_empty e.mac d.mac ha hb
  · exact fun h => mergeStr_keeps_nonempty e.hostname d.hostname h
  · exact fun ha hb => mergeStr_fills_empty e.hostname d.hostname ha hb
  · exact fun h => mergeStr_keeps_nonempty e.manufacturer d.manufacturer h
  · exact fun ha hb => mergeStr_fills_empty e.manufacturer d.manufacturer ha hb
  · exact fun h => mergeStr_keeps_nonempty e.model d.model h
  · exact fun ha hb => mergeStr_fills_empty e.model d.model ha hb
  · intro hex
    unfold addDevice
    rw [hex, regLookup_regPut]
    rfl

/-- witness for C8: the two paths evaluated on a fully-attributed stored
device and an attribute-less rescan of the same IP. -/
theorem merge_monotonic_addDevice_overwrites_witness :
    (mergeDevices 3 devFull devBare).mac = devFull.mac ∧
    (regLookup (addDevice 5 [("10.0.0.9", devFull)] devBare) devBare.ip).map
        (fun x => (x.mac, x.hostname, x.manufacturer, x.model,
          x.protocols, x.discoveredAt, x.lastSeen)) =
      some (devBare.mac, devBare.hostname, devBare.manufacturer,
        devBare.model, devBare.protocols, devFull.discoveredAt, 5) := by
  have h := merge_monotonic_addDevice_overwrites 3 devFull devBare
    [("10.0.0.9", devFull)]
  have h5 := merge_monotonic_addDevice_overwrites 5 devFull devBare
    [("10.0.0.9", devFull)]
  exact ⟨h.1.1 (by decide), h5.2.2.2.2 rfl⟩

/-- counterexample for C8: `AddDevice` on the existing IP 10.0.0.9 replaces
the stored non-empty MAC, hostname, manufacturer and model with the incoming
empty strings — the claimed monotonicity fails on the registry path. -/
theorem addDevice_overwrites_counterexample :
    devFull.mac = "aa:bb:cc:dd:ee:ff" ∧
    (regLookup (addDevice 5 [("10.0.0.9", devFull)] devBare) "10.0.0.9").map
        (fun x => (x.mac, x.hostname, x.manufacturer, x.model)) =
      some ("", "", "", "") := by
  refine ⟨rfl, ?_⟩
  decide

/-! ### Cache TTL boundary (C9) -/

theorem mem_cachePut (ip : String) (cd : CachedDevice) :
    ∀ (m : List (String × CachedDevice)) kv, kv ∈ cachePut m ip cd →
      kv ∈ m ∨ kv = (ip, cd) := by
  intro m
  induction m with
  | nil =>
    intro kv h
    simp [cachePut] at h
    exact Or.inr h
  | cons kv0 m ih =>
    intro kv h
    rcases kv0 with ⟨k0, v0⟩
    simp only [cachePut] at h
    by_cases hk : k0 == ip
    · rw [if_pos hk] at h
      rcases List.mem_cons.mp h with h1 | h1
      · exact Or.inr h1
      · exact Or.inl (List.mem_cons_of_mem _ h1)
    · rw [if_neg hk] at h
      rcases List.mem_cons.mp h with h1 | h1
      · exact Or.inl (h1 ▸ List.mem_cons_self _ _)
      · rcases ih kv h1 with h2 | h2
        · exact Or.inl (List.mem_cons_of_mem _ h2)
        · exact Or.inr h2

theorem cachePut_ne_nil (m : List (String × CachedDevice)) (ip : String)
    (cd : CachedDevice) : cachePut m ip cd ≠ [] := by
  cases m with
  | nil => simp [cachePut]
  | cons kv m =>
    rcases kv with ⟨k, v⟩
    simp only [cachePut]
    by_cases hk : k == ip
    · rw [if_pos hk]; simp
    · rw [if_neg hk]; simp

theorem foldl_cachePut_expiry (E : Nat) :
    ∀ (devs : List Device) (init : List (String × CachedDevice)),
      (∀ kv ∈ init, kv.2.expiresAt = E) →
      ∀ kv ∈ devs.foldl (fun m d => cachePut m d.ip ⟨d, E⟩) init,
        kv.2.expiresAt = E := by
  intro devs
  induction devs with
  | nil => intro init hinit kv h; exact hinit kv h
  | cons d devs ih =>
    intro init hinit kv h
    refine ih (cachePut init d.ip ⟨d, E⟩) ?_ kv h
    intro kv2 h2
    rcases mem_cachePut d.ip ⟨d, E⟩ init kv2 h2 with h3 | h3
    · exact hinit kv2 h3
    · rw [h3]

theorem foldl_cachePut_ne_nil (E : Nat) :
    ∀ (devs : List Device) (init : List (String × CachedDevice)),
      devs ≠ [] ∨ init ≠ [] →
      devs.foldl (fun m d => cachePut m d.ip ⟨d, E⟩) init ≠ [] := by
  intro devs
  induction devs with
  | nil =>
    intro init h
    rcases h with h | h
    · exact absurd rfl h
    · exact h
  | cons d devs ih =>
    intro init _
    exact ih (cachePut init d.ip ⟨d, E⟩)
      (Or.inr (cachePut_ne_nil init d.ip ⟨d, E⟩))

theorem filterMap_fresh (rt : Nat) :
    ∀ (l : List (String × CachedDevice)),
      (∀ kv ∈ l, rt < kv.2.expiresAt) →
      l.filterMap
          (fun kv => if rt < kv.2.expiresAt then some kv.2.device else none) =
        l.map (fun kv => kv.2.device) := by
  intro l
  induction l with
  | nil => intro _; rfl
  | cons kv l ih =>
    intro h
    rw [List.filterMap_cons, List.map_cons]
    rw [if_pos (h kv (List.mem_cons_self _ _))]
    rw [ih (fun kv2 h2 => h kv2 (List.mem_cons_of_mem _ h2))]

theorem filterMap_expired (rt : Nat) :
    ∀ (l : List (String × CachedDevice)),
      (∀ kv ∈ l, ¬ rt < kv.2.expiresAt) →
      l.filterMap
          (fun kv => if rt < kv.2.expiresAt then some kv.2.device else none) =
        [] := by
  intro l
  induction l with
  | nil => intro _; rfl
  | cons kv l ih =>
    intro h
    rw [List.filterMap_cons]
    rw [if_neg (h kv (List.mem_cons_self _ _))]
    exact ih (fun kv2 h2 => h kv2 (List.mem_cons_of_mem _ h2))

/-- C9 (amended): after `SaveToCache` at instant `st` with TTL `t`, a
read strictly before `st + t` on a non-empty snapshot reports the whole
snapshot as present; a read *at or after* `st + t` reports the cache absent
(the per-entry check uses strict `Before`, so the boundary instant itself is
already absent); an empty snapshot is always reported absent. -/
theorem cache_ttl_boundary (st rt : Nat) (c : Cache) (devs : List Device) :
    (st + c.defaultTTL ≤ rt →
      getFromCache rt (saveToCache st c devs) = ([], false)) ∧
    (rt < st + c.defaultTTL → devs ≠ [] →
      getFromCache rt (saveToCache st c devs) =
        ((saveToCache st c devs).devices.map (fun kv => kv.2.device), true) ∧
      (saveToCache st c devs).devices ≠ []) ∧
    (devs = [] → getFromCache rt (saveToCache st c devs) = ([], false)) := by
  have hexp : ∀ kv ∈ (saveToCache st c devs).devices,
      kv.2.expiresAt = st + c.defaultTTL :=
    foldl_cachePut_expiry (st + c.defaultTTL) devs [] (by intro kv h; simp at h)
  refine ⟨?_, ?_, ?_⟩
  · intro hle
    by_cases hlt : st + c.defaultTTL < rt
    · simp [getFromCache, saveToCache, hlt]
    · have hrt : rt = st + c.defaultTTL := by omega
      have hnone := filterMap_expired rt (saveToCache st c devs).devices
        (fun kv h => by rw [hexp kv h]; omega)
      simp only [getFromCache, saveToCache, hlt, if_false] at *
      simp [hnone, hlt]
  · intro hlt hne
    have hnotafter : ¬ st + c.defaultTTL < rt := by omega
    have hfresh := filterMap_fresh rt (saveToCache st c devs).devices
      (fun kv h => by rw [hexp kv h]; omega)
    have hnn : (saveToCache st c devs).devices ≠ [] :=
      foldl_cachePut_ne_nil (st + c.defaultTTL) devs [] (Or.inl hne)
    refine ⟨?_, hnn⟩
    simp only [getFromCache, saveToCache] at *
    rw [if_neg hnotafter, hfresh]
    have hmapne :
        List.map (fun (kv : String × CachedDevice) => kv.2.device)
          (devs.foldl
            (fun m d => cachePut m d.ip ⟨d, st + c.defaultTTL⟩) []) ≠ [] := by
      simpa only [ne_eq, List.map_eq_nil_iff] using hnn
    rw [if_neg (by simpa only [List.isEmpty_iff] using hmapne)]
  · intro hdevs
    subst hdevs
    by_cases hlt : st + c.defaultTTL < rt <;>
      simp [getFromCache, saveToCache, hlt]

/-- witness for C9: the boundary evaluated around a save at instant 0 with
TTL 10 of one device — present at instant 3, absent at instant 12. -/
theorem cache_ttl_boundary_witness :
    getFromCache 12 (saveToCache 0 emptyCache [devFull]) = ([], false) ∧
    getFromCache 3 (saveToCache 0 emptyCache [devFull]) =
      ((saveToCache 0 emptyCache [devFull]).devices.map
        (fun kv => kv.2.device), true) := by
  refine ⟨(cache_ttl_boundary 0 12 emptyCache [devFull]).1 (by decide),
    ((cache_ttl_boundary 0 3 emptyCache [devFull]).2.1 (by decide)
      (by simp)).1⟩

/-- counterexample for C9: a read at exactly `last_scan + TTL` (instant 10
after a save at 0 with TTL 10) reports the snapshot absent although the
claim requires every read at or before that instant to report it present;
one instant earlier the same snapshot is still reported. -/
theorem cache_boundary_counterexample :
    getFromCache 10 (saveToCache 0 emptyCache [devFull]) = ([], false) ∧
    getFromCache 9 (saveToCache 0 emptyCache [devFull]) = ([devFull], true) := by
  exact ⟨rfl, rfl⟩

/-! ### Host enumeration (C3) -/

theorem parseOctet_le (s : List Char) (v : Nat) (h : parseOctet s = some v) :
    v ≤ 255 := by
  unfold parseOctet at h
  repeat' split at h
  all_goals simp_all <;> omega

theorem parseOnes_le (s : List Char) (n : Nat) (h : parseOnes s = some n) :
    n ≤ 32 := by
  unfold parseOnes at h
  repeat' split at h
  all_goals simp_all <;> omega

theorem parseIPv4_lt (s : String) (ip : Nat) (h : parseIPv4 s = some ip) :
    ip < 4294967296 := by
  unfold parseIPv4 at h
  split at h
  · split at h
    · rename_i a b c d ha hb hc hd
      have ha2 := parseOctet_le _ _ ha
      have hb2 := parseOctet_le _ _ hb
      have hc2 := parseOctet_le _ _ hc
      have hd2 := parseOctet_le _ _ hd
      have : (((a * 256 + b) * 256 + c) * 256 + d) = ip := by
        exact Option.some.inj h
      omega
    · exact absurd h (by simp)
  · exact absurd h (by simp)

theorem parseCIDR_spec (s : String) (netw n : Nat)
    (h : parseCIDR s = some (netw, n)) :
    n ≤ 32 ∧ netw % 2 ^ (32 - n) = 0 ∧ netw < 4294967296 := by
  unfold parseCIDR at h
  split at h
  · rename_i addr mask heq
    split at h
    · rename_i ip m hip hm
      have hlt := parseIPv4_lt _ _ hip
      have hle := parseOnes_le _ _ hm
      have hinj := Option.some.inj h
      have hnetw : netw = (ip >>> (32 - m)) <<< (32 - m) := by
        have := congrArg Prod.fst hinj
        simpa using this.symm
      have hn : n = m := by
        have := congrArg Prod.snd hinj
        simpa using this.symm
      subst hn
      rw [hnetw, Nat.shiftLeft_eq, Nat.shiftRight_eq_div_pow]
      refine ⟨hle, Nat.mul_mod_left _ _, ?_⟩
      calc ip / 2 ^ (32 - n) * 2 ^ (32 - n) ≤ ip := Nat.div_mul_le_self _ _
        _ < 4294967296 := hlt
    · exact absurd h (by simp)
  · exact absurd h (by simp)

theorem parseSubnet_spec (s : String) (netw n : Nat)
    (h : parseSubnet s = some (netw, n)) :
    n ≤ 32 ∧ netw % 2 ^ (32 - n) = 0 ∧ netw < 4294967296 := by
  unfold parseSubnet at h
  split at h
  · rename_i r heq
    have hr := Option.some.inj h
    subst hr
    exact parseCIDR_spec s netw n heq
  · split at h
    · exact absurd h (by simp)
    · exact parseCIDR_spec _ netw n h

/-- for a `/0` mask the Go iteration never leaves the subnet: every address
wraps around inside it, so the loop never terminates, whatever the fuel. -/
theorem hostsLoop_slash0_diverges (netw : Nat) (hnetw : netw < 4294967296) :
    ∀ (f ip : Nat) (acc : List String), ip < 4294967296 →
      hostsLoop netw 0 f ip acc = none := by
  intro f
  induction f with
  | zero => intro ip acc _; rfl
  | succ f ih =>
    intro ip acc hip
    have hc : cidrContains netw 0 ip = true := by
      unfold cidrContains
      have h1 : ip >>> (32 - 0) = 0 := by
        rw [Nat.shiftRight_eq_div_pow]
        exact Nat.div_eq_of_lt (by norm_num at hip ⊢; omega)
      have h2 : netw >>> (32 - 0) = 0 := by
        rw [Nat.shiftRight_eq_div_pow]
        exact Nat.div_eq_of_lt (by norm_num at hnetw ⊢; omega)
      rw [h1, h2]
      rfl
    simp only [hostsLoop, hc, if_true]
    exact ih _ _ (Nat.mod_lt _ (by norm_num))

theorem hostsLoop_complete (netw n : Nat) (hn : 1 ≤ n) (hn32 : n ≤ 32)
    (hmod : netw % 2 ^ (32 - n) = 0) (hlt : netw < 4294967296) :
    ∀ (f j : Nat) (acc : List String), j ≤ 2 ^ (32 - n) →
      2 ^ (32 - n) - j < f →
      hostsLoop netw n f ((netw + j) % 4294967296) acc =
        some (acc ++ (List.range' j (2 ^ (32 - n) - j)).filterMap (fun i =>
          if i ≠ 0 ∧ i ≠ 2 ^ (32 - n) - 1 then some (ipToStr (netw + i))
          else none)) := by
  -- abbreviations and the global arithmetic facts
  obtain ⟨k, hk⟩ := Nat.dvd_of_mod_eq_zero hmod
  have hpow : 2 ^ (32 - n) * 2 ^ n = 4294967296 := by
    rw [← pow_add]
    have : 32 - n + n = 32 := by omega
    rw [this]
    norm_num
  have hkle : k < 2 ^ n := by
    by_contra hcon
    push_neg at hcon
    have h2 : 2 ^ (32 - n) * 2 ^ n ≤ 2 ^ (32 - n) * k :=
      Nat.mul_le_mul_left _ hcon
    rw [hpow, ← hk] at h2
    omega
  have hupper : netw + 2 ^ (32 - n) ≤ 4294967296 := by
    have : 2 ^ (32 - n) * (k + 1) ≤ 2 ^ (32 - n) * 2 ^ n :=
      Nat.mul_le_mul_left _ hkle
    calc netw + 2 ^ (32 - n) = 2 ^ (32 - n) * (k + 1) := by rw [hk]; ring
      _ ≤ 2 ^ (32 - n) * 2 ^ n := this
      _ = 4294967296 := hpow
  have hshift_netw : netw >>> (32 - n) = k := by
    rw [Nat.shiftRight_eq_div_pow, hk]
    exact Nat.mul_div_cancel_left k (Nat.pos_pow_of_pos _ (by norm_num))
  have hcont_mid : ∀ j, j < 2 ^ (32 - n) →
      cidrContains netw n (netw + j) = true := by
    intro j hj
    unfold cidrContains
    rw [hshift_netw, Nat.shiftRight_eq_div_pow, hk]
    rw [Nat.mul_add_div (Nat.pos_pow_of_pos _ (by norm_num))]
    rw [Nat.div_eq_of_lt hj]
    simp
  have hcont_end : cidrContains netw n ((netw + 2 ^ (32 - n)) % 4294967296)
      = false := by
    unfold cidrContains
    rw [hshift_netw]
    rcases Nat.lt_or_ge (k + 1) (2 ^ n) with hk1 | hk1
    · have hlt2 : netw + 2 ^ (32 - n) < 4294967296 := by
        have heq2 : netw + 2 ^ (32 - n) = 2 ^ (32 - n) * (k + 1) := by
          rw [hk]; ring
        rw [heq2, ← hpow]
        exact Nat.mul_lt_mul_of_pos_left hk1 (Nat.two_pow_pos _)
      rw [Nat.mod_eq_of_lt hlt2, Nat.shiftRight_eq_div_pow, hk]
      have : 2 ^ (32 - n) * k + 2 ^ (32 - n) = 2 ^ (32 - n) * (k + 1) := by
        ring
      rw [this, Nat.mul_div_cancel_left _ (Nat.pos_pow_of_pos _ (by norm_num))]
      simp only [beq_eq_false_iff_ne, ne_eq]
      omega
    · have hkeq : k + 1 = 2 ^ n := by omega
      have heq : netw + 2 ^ (32 - n) = 4294967296 := by
        have h3 : netw + 2 ^ (32 - n) = 2 ^ (32 - n) * (k + 1) := by
          rw [hk]; ring
        rw [h3, hkeq, hpow]
      rw [heq, Nat.mod_self]
      have h0 : (0 : Nat) >>> (32 - n) = 0 := Nat.zero_shiftRight _
      rw [h0]
      have hkpos : 1 ≤ k := by
        have h2 : 2 ≤ 2 ^ n := by
          calc 2 = 2 ^ 1 := rfl
            _ ≤ 2 ^ n := Nat.pow_le_pow_right (by norm_num) hn
        omega
      simp only [beq_eq_false_iff_ne, ne_eq]
      omega
  -- the induction over the fuel
  intro f
  induction f with
  | zero =>
    intro j acc _ hf
    exact absurd hf (Nat.not_lt_zero _)
  | succ f ih =>
    intro j acc hj hf
    rcases Nat.lt_or_ge j (2 ^ (32 - n)) with hjlt | hjge
    · -- a genuine iteration at address netw + j
      have hjlt32 : netw + j < 4294967296 := by omega
      rw [Nat.mod_eq_of_lt hjlt32]
      simp only [hostsLoop, hcont_mid j hjlt, if_true]
      have hstep : netw + j + 1 = netw + (j + 1) := by omega
      rw [hstep, ih (j + 1) _ (by omega) (by omega)]
      -- align the accumulated element with the head of the range
      have hrange : 2 ^ (32 - n) - j = (2 ^ (32 - n) - (j + 1)) + 1 := by
        omega
      rw [hrange, List.range'_succ, List.filterMap_cons]
      have hbc : broadcastOf netw n = netw + (2 ^ (32 - n) - 1) := by
        unfold broadcastOf
        rw [Nat.one_shiftLeft]
      by_cases h0 : j = 0
      · subst h0
        have hne : ((netw + 0 != netw) &&
            (netw + 0 != broadcastOf netw n)) = false := by
          simp
        rw [hne]
        have hcondneg : ¬((0 : Nat) ≠ 0 ∧ (0 : Nat) ≠ 2 ^ (32 - n) - 1) := by
          omega
        rw [if_neg hcondneg]
        rfl
      · by_cases hL : j = 2 ^ (32 - n) - 1
        · have hjb : netw + j = broadcastOf netw n := by
            rw [hbc]
            omega
          have hne : ((netw + j != netw) &&
              (netw + j != broadcastOf netw n)) = false := by
            rw [hjb, bne_self_eq_false, Bool.and_false]
          rw [hne]
          have hcondneg : ¬(j ≠ 0 ∧ j ≠ 2 ^ (32 - n) - 1) := by omega
          rw [if_neg hcondneg]
          rfl
        · have hne1 : (netw + j != netw) = true := by
            simp only [bne_iff_ne]
            omega
          have hne2 : (netw + j != broadcastOf netw n) = true := by
            rw [hbc]
            simp only [bne_iff_ne]
            omega
          rw [hne1, hne2]
          have hcondpos : j ≠ 0 ∧ j ≠ 2 ^ (32 - n) - 1 := ⟨h0, hL⟩
          rw [if_pos hcondpos]
          show some ((acc ++ [ipToStr (netw + j)]) ++
              List.filterMap (fun i => if i ≠ 0 ∧ i ≠ 2 ^ (32 - n) - 1
                then some (ipToStr (netw + i)) else none)
              (List.range' (j + 1) (2 ^ (32 - n) - (j + 1)))) =
            some (acc ++ (ipToStr (netw + j) ::
              List.filterMap (fun i => if i ≠ 0 ∧ i ≠ 2 ^ (32 - n) - 1
                then some (ipToStr (netw + i)) else none)
              (List.range' (j + 1) (2 ^ (32 - n) - (j + 1)))))
          conv_rhs => rw [List.append_cons]
    · -- j = 2^(32-n): the loop exits
      have hjeq : j = 2 ^ (32 - n) := by omega
      subst hjeq
      simp only [hostsLoop, hcont_end]
      rw [if_neg Bool.false_ne_true]
      have hz : 2 ^ (32 - n) - 2 ^ (32 - n) = 0 := by omega
      rw [hz]
      simp [List.range']

/-- the general host-list result, applied by the C3 theorem both
symbolically and at its concrete subnets (evaluating the loop under fuel
`2^32` in the kernel is infeasible, so the concrete cases also go through
this lemma). -/
theorem getSubnetHosts_general (s : String) (netw n : Nat)
    (h : parseSubnet s = some (netw, n)) (hn : 1 ≤ n) :
    getSubnetHosts 4294967296 s = .ok (hostStrings netw n) := by
  obtain ⟨hn32, hmod, hlt⟩ := parseSubnet_spec s netw n h
  have hfuel : 2 ^ (32 - n) - 0 < 4294967296 := by
    have h31 : 2 ^ (32 - n) ≤ 2 ^ 31 :=
      Nat.pow_le_pow_right (by norm_num) (by omega)
    have h32 : (2 : Nat) ^ 31 < 4294967296 := by norm_num
    omega
  have hmain := hostsLoop_complete netw n hn hn32 hmod hlt 4294967296 0 []
    (Nat.zero_le _) hfuel
  rw [Nat.add_zero, Nat.mod_eq_of_lt hlt] at hmain
  unfold getSubnetHosts
  rw [h]
  show (match hostsLoop netw n 4294967296 netw [] with
    | none => HostsResult.noFuel
    | some hosts => HostsResult.ok hosts) = HostsResult.ok (hostStrings netw n)
  rw [hmain]
  show HostsResult.ok _ = _
  congr 1
  unfold hostStrings
  rw [Nat.one_shiftLeft, List.range_eq_range', List.nil_append, Nat.sub_zero]

/-- C3 (amended): for every valid CIDR with prefix length between 1 and
32 the function returns the ascending host list — the addresses of the
subnet in increasing order with the network and broadcast addresses
excluded; in particular `192.168.1.0/24` yields the 254 addresses
192.168.1.1 … 192.168.1.254 and `192.168.1.0/30` yields exactly
[192.168.1.1, 192.168.1.2]. (For prefix 0 the enumeration loop never
terminates; see the counterexample.) -/
theorem getSubnetHosts_host_list (s : String) (netw n : Nat)
    (h : parseSubnet s = some (netw, n)) (hn : 1 ≤ n) :
    getSubnetHosts 4294967296 s = .ok (hostStrings netw n) ∧
    getSubnetHosts 4294967296 "192.168.1.0/30" =
      .ok ["192.168.1.1", "192.168.1.2"] ∧
    (hostStrings 3232235776 24).length = 254 ∧
    (hostStrings 3232235776 24).head? = some "192.168.1.1" ∧
    (hostStrings 3232235776 24).getLast? = some "192.168.1.254" ∧
    getSubnetHosts 4294967296 "192.168.1.0/24" =
      .ok (hostStrings 3232235776 24) := by
  refine ⟨getSubnetHosts_general s netw n h hn, ?_, by decide, by decide,
    by decide,
    getSubnetHosts_general "192.168.1.0/24" 3232235776 24 (by decide)
      (by norm_num)⟩
  rw [getSubnetHosts_general "192.168.1.0/30" 3232235776 30 (by decide)
    (by norm_num)]
  decide

/-- witness for C3: the theorem applied to the concrete subnet
`192.168.1.0/30`. -/
theorem getSubnetHosts_host_list_witness :
    getSubnetHosts 4294967296 "192.168.1.0/30" =
      .ok (hostStrings 3232235776 30) :=
  (getSubnetHosts_host_list "192.168.1.0/30" 3232235776 30 (by decide)
    (by norm_num)).1

theorem getSubnetHosts_eq_noFuel_of (s : String) (netw n fuel : Nat)
    (hp : parseSubnet s = some (netw, n))
    (hl : hostsLoop netw n fuel netw [] = none) :
    getSubnetHosts fuel s = HostsResult.noFuel := by
  unfold getSubnetHosts
  rw [hp]
  show (match hostsLoop netw n fuel netw [] with
    | none => HostsResult.noFuel
    | some hosts => HostsResult.ok hosts) = HostsResult.noFuel
  rw [hl]

/-- counterexample for C3: `0.0.0.0/0` is a valid CIDR string, but the
enumeration loop never leaves the subnet — even fuel covering the entire
32-bit address space is exhausted (`hostsLoop_slash0_diverges` shows this
for *every* fuel), so `GetSubnetHosts` does not return the host list the
claim promises for every valid CIDR. -/
theorem getSubnetHosts_slash0_counterexample :
    getSubnetHosts 4294967296 "0.0.0.0/0" = HostsResult.noFuel :=
  getSubnetHosts_eq_noFuel_of "0.0.0.0/0" 0 0 4294967296 (by decide)
    (hostsLoop_slash0_diverges 0 (by norm_num) 4294967296 0 [] (by norm_num))

/-! ### SDP parser totality (C10) -/

theorem listStartsWith_length :
    ∀ (pat l : List Char), listStartsWith pat l = true →
      pat.length ≤ l.length := by
  intro pat
  induction pat with
  | nil => intro l _; simp
  | cons p ps ih =>
    intro l h
    cases l with
    | nil => simp [listStartsWith] at h
    | cons c cs =>
      simp only [listStartsWith, Bool.and_eq_true] at h
      have := ih cs h.2
      simp only [List.length_cons]
      omega

theorem goSliceFrom_eq (l : List Char) (i : Nat) (h : i ≤ l.length) :
    goSliceFrom l i = some (l.drop i) := by
  unfold goSliceFrom
  rw [if_pos h]

theorem goSliceRange_eq (l : List Char) (i j : Nat) (h1 : i ≤ j)
    (h2 : j ≤ l.length) : goSliceRange l i j = some ((l.take j).drop i) := by
  unfold goSliceRange
  rw [if_pos ⟨h1, h2⟩]

theorem splitAllAux_ne_nil (sep : Char) :
    ∀ (l cur : List Char), splitAllAux sep l cur ≠ [] := by
  intro l
  induction l with
  | nil => intro cur; simp [splitAllAux]
  | cons c cs ih =>
    intro cur
    simp only [splitAllAux]
    by_cases h : c == sep
    · rw [if_pos h]; simp
    · rw [if_neg h]; exact ih _

theorem indexOfChar_lt :
    ∀ (l : List Char) (sep : Char) (i : Nat), indexOfChar sep l = some i →
      i < l.length := by
  intro l sep i h
  unfold indexOfChar at h
  have := List.findIdx?_eq_some_iff_findIdx_eq.mp h
  exact this.1

theorem foldlM_option_isSome {α β : Type} (f : β → α → Option β)
    (hf : ∀ b a, (f b a).isSome = true) :
    ∀ (l : List α) (b : β), (l.foldlM f b).isSome = true := by
  intro l
  induction l with
  | nil => intro b; rfl
  | cons a l ih =>
    intro b
    obtain ⟨b2, hb2⟩ := Option.isSome_iff_exists.mp (hf b a)
    show ((f b a) >>= fun b2 => l.foldlM f b2).isSome = true
    rw [hb2]
    show (l.foldlM f b2).isSome = true
    exact ih b2

theorem option_bind_isSome {α β : Type} (a : Option α) (f : α → Option β)
    (x : α) (ha : a = some x) (hf : (f x).isSome = true) :
    (a >>= f).isSome = true := by
  rw [ha]
  exact hf

theorem parseFmtpPair_isSome (media : MediaDescription) (info : StreamInfo)
    (pairRaw : List Char) : (parseFmtpPair media info pairRaw).isSome = true := by
  simp only [parseFmtpPair]
  cases hidx : indexOfChar '=' (listTrimSpace pairRaw) with
  | none => rfl
  | some idx =>
    have hlt := indexOfChar_lt _ _ _ hidx
    show ((goSliceRange (listTrimSpace pairRaw) 0 idx) >>= _).isSome = true
    refine option_bind_isSome _ _ _
      (goSliceRange_eq _ _ _ (Nat.zero_le _) (Nat.le_of_lt hlt)) ?_
    show ((goSliceFrom (listTrimSpace pairRaw) (idx + 1)) >>= _).isSome = true
    refine option_bind_isSome _ _ _ (goSliceFrom_eq _ _ (by omega)) ?_
    dsimp only
    split
    · split
      · split
        · rename_i hlen
          refine option_bind_isSome _ _ _
            (goSliceRange_eq _ _ _ (by omega) (by omega)) ?_
          refine option_bind_isSome _ _ _
            (goSliceRange_eq _ _ _ (by omega) (by omega)) ?_
          rfl
        · rfl
      · split <;> rfl
    · rfl

theorem parseRtpmapAttr_isSome (attr : List Char) (media : MediaDescription)
    (info : StreamInfo) : (parseRtpmapAttr attr media info).isSome = true := by
  simp only [parseRtpmapAttr]
  by_cases hsw : startsWithStr attr "rtpmap:"
  · rw [if_pos hsw]
    have hlen : 7 ≤ attr.length := by
      have := listStartsWith_length "rtpmap:".toList attr hsw
      simpa using this
    refine option_bind_isSome _ _ _ (goSliceFrom_eq _ _ hlen) ?_
    dsimp only
    cases hf : fieldsChars (attr.drop 7) with
    | nil => rfl
    | cons f1 fs =>
      cases fs with
      | nil => rfl
      | cons codecInfo fs2 =>
        dsimp only
        cases hsp : splitAllChar '/' codecInfo with
        | nil => exact absurd hsp (splitAllAux_ne_nil '/' codecInfo [])
        | cons c cs =>
          refine option_bind_isSome _ _ c rfl ?_
          dsimp only
          split
          · split <;> rfl
          · split
            · split <;> rfl
            · rfl
  · rw [if_neg hsw]; rfl

theorem parseFmtpAttr_isSome (attr : List Char) (media : MediaDescription)
    (info : StreamInfo) : (parseFmtpAttr attr media info).isSome = true := by
  simp only [parseFmtpAttr]
  by_cases hsw : startsWithStr attr "fmtp:"
  · rw [if_pos hsw]
    have hlen : 5 ≤ attr.length := by
      have := listStartsWith_length "fmtp:".toList attr hsw
      simpa using this
    refine option_bind_isSome _ _ _ (goSliceFrom_eq _ _ hlen) ?_
    dsimp only
    split
    · exact foldlM_option_isSome (parseFmtpPair media)
        (fun b a => parseFmtpPair_isSome media b a) _ info
    · rfl
  · rw [if_neg hsw]; rfl

theorem parseFramerateAttr_isSome (attr : List Char)
    (media : MediaDescription) (info : StreamInfo) :
    (parseFramerateAttr attr media info).isSome = true := by
  simp only [parseFramerateAttr]
  by_cases hsw : startsWithStr attr "framerate:"
  · rw [if_pos hsw]
    have hlen : 10 ≤ attr.length := by
      have := listStartsWith_length "framerate:".toList attr hsw
      simpa using this
    refine option_bind_isSome _ _ _ (goSliceFrom_eq _ _ hlen) ?_
    dsimp only
    split
    · split <;> rfl
    · rfl
  · rw [if_neg hsw]; rfl

theorem parseDimensionsAttr_isSome (attr : List Char)
    (media : MediaDescription) (info : StreamInfo) :
    (parseDimensionsAttr attr media info).isSome = true := by
  simp only [parseDimensionsAttr]
  by_cases hsw : startsWithStr attr "x-dimensions:"
  · rw [if_pos hsw]
    have hlen : 13 ≤ attr.length := by
      have := listStartsWith_length "x-dimensions:".toList attr hsw
      simpa using this
    refine option_bind_isSome _ _ _ (goSliceFrom_eq _ _ hlen) ?_
    dsimp only
    split
    · split
      · split <;> rfl
      · rfl
    · rfl
  · rw [if_neg hsw]; rfl

theorem parseSpropAttr_isSome (attr : List Char) (media : MediaDescription)
    (info : StreamInfo) : (parseSpropAttr attr media info).isSome = true := by
  simp only [parseSpropAttr, extractResolutionFromSPS]
  split
  · split
    · split <;> rfl
    · rfl
  · rfl

theorem parseAttribute_isSome (line : List Char) (media : MediaDescription)
    (info : StreamInfo) (hlen : 2 ≤ line.length) :
    (parseAttribute line media info).isSome = true := by
  unfold parseAttribute
  rw [goSliceFrom_eq _ _ hlen]
  show ((parseRtpmapAttr (line.drop 2) media info) >>= _).isSome = true
  obtain ⟨i1, h1⟩ := Option.isSome_iff_exists.mp
    (parseRtpmapAttr_isSome (line.drop 2) media info)
  refine option_bind_isSome _ _ i1 h1 ?_
  obtain ⟨i2, h2⟩ := Option.isSome_iff_exists.mp
    (parseFmtpAttr_isSome (line.drop 2) media i1)
  refine option_bind_isSome _ _ i2 h2 ?_
  obtain ⟨i3, h3⟩ := Option.isSome_iff_exists.mp
    (parseFramerateAttr_isSome (line.drop 2) media i2)
  refine option_bind_isSome _ _ i3 h3 ?_
  obtain ⟨i4, h4⟩ := Option.isSome_iff_exists.mp
    (parseDimensionsAttr_isSome (line.drop 2) media i3)
  refine option_bind_isSome _ _ i4 h4 ?_
  exact parseSpropAttr_isSome (line.drop 2) media i4

theorem parseSDPLine_isSome (st : Option MediaDescription × StreamInfo)
    (rawLine : List Char) : (parseSDPLine st rawLine).isSome = true := by
  obtain ⟨currentMedia, info⟩ := st
  simp only [parseSDPLine]
  by_cases hempty : (listTrimSpace rawLine).isEmpty
  · rw [if_pos hempty]; rfl
  · rw [if_neg hempty]
    by_cases hshort : (listTrimSpace rawLine).length < 2
    · rw [if_pos hshort]; rfl
    · rw [if_neg hshort]
      push_neg at hshort
      rcases hline : listTrimSpace rawLine with _ | ⟨a, _ | ⟨b, rest⟩⟩
      · rw [hline] at hshort; simp at hshort
      · rw [hline] at hshort; simp at hshort
      · refine option_bind_isSome _ _ b rfl ?_
        dsimp only
        split
        · rfl
        · refine option_bind_isSome _ _ a rfl ?_
          dsimp only
          refine option_bind_isSome _ _ _ (goSliceFrom_eq _ _ (by simp)) ?_
          dsimp only
          split
          · split
            · split
              · rfl
              · split <;> rfl
            · rfl
          · split
            · cases currentMedia with
              | some media =>
                dsimp only
                obtain ⟨i1, h1⟩ := Option.isSome_iff_exists.mp
                  (parseAttribute_isSome (a :: b :: rest) media info (by simp))
                refine option_bind_isSome _ _ _ h1 ?_
                rfl
              | none => rfl
            · rfl

/-- C10 (confirmed): `ParseSDP` is total — for every input string,
including empty or non-SDP text, it produces a `StreamInfo` (the Go function
also always returns a `nil` error): every slice and index the Go code
performs is guarded, so the `Option` layer modelling Go panics never fires;
unrecognized lines only leave fields empty or zero. -/
theorem parseSDP_total (sdp : String) : ∃ info, parseSDP sdp = some info := by
  have h := foldlM_option_isSome parseSDPLine parseSDPLine_isSome
    (splitAllChar '\n' sdp.toList)
    (none, { url := "", codec := "", resolution := "", fps := 0.0,
             bitrate := 0, audioCodec := "", channels := 0,
             available := false, videoTracks := [], audioTracks := [] })
  obtain ⟨⟨m, info⟩, hst⟩ := Option.isSome_iff_exists.mp h
  have hps : (parseSDP sdp).isSome = true := by
    simp only [parseSDP]
    refine option_bind_isSome _ _ _ hst ?_
    rfl
  exact Option.isSome_iff_exists.mp hps

end LVS
